import Mathlib

/-!
# simple-ikvm: the capture session (`ikvm_video.cpp`) and the option parser (`ikvm_args.cpp`)

A shallow embedding of `ikvm::Video` and of the `-f` / `-s` cases of `ikvm::Args::Args`.

* The kernel side (open, ioctl, mmap, select) is an oracle `Device`: the reply to the
  `n`-th request, given the request.  Every request the session makes is recorded with
  its reply in the ghost field `Video.trace`, every line written to `std::cout` in the
  ghost field `Video.log`.  A reply is read the way the code reads it: the fields are
  used whatever the return value was.
* `munmap`, `close`, `fcntl` and `Input::sendWakeupPacket` return nothing the session
  reads and do not touch any member of `Video`; they are left out of the trace.
* Pointers are natural numbers, `0` being `nullptr`.
* Buffer indices are `__u32` in `v4l2_buffer`, `int` in `lastFrameIndex` and
  `unsigned int` in the loops.  The pool has as many entries as the `__u32` count of a
  `VIDIOC_REQBUFS` reply, so a loop counter does not wrap and `(unsigned int)-1` is no
  pool index.  A dequeued index outside the pool, or one that does not fit an `int`,
  makes the code write outside the vector; the model has no result there (see
  `dequeue`).  On all other indices the conversions are the identity, and the
  comparison of line 102 is modelled on the integers.
* `resize()`, `restart()` and `start()` call one another; the model counts the nested
  calls of `restart()` it may still make (`fuel`) and has no result when it would need
  one more.  The dequeue loop of `getFrame()` is bounded the same way by its rounds.
-/

namespace ikvm

/-! ## `ikvm_args.cpp` -/

/-- The conversion `(int)` applied to a `long`: reduction modulo `2^32` into
`[-2^31, 2^31)`, as GCC and Clang do it and C++20 requires. -/
def toInt (v : Int) : Int := (v + 2 ^ 31) % 2 ^ 32 - 2 ^ 31

/-- The values `strtol` can return on a target whose `long` has 64 bits. -/
def isLong (v : Int) : Prop := -(2 ^ 63) ≤ v ∧ v < 2 ^ 63

instance (v : Int) : Decidable (isLong v) := by unfold isLong; infer_instance

/-- Case `'f'` of `Args::Args` (lines 38-42), `v` being the value of `strtol`. -/
def Args.frameRate (v : Int) : Int :=
  let frameRate := toInt v
  if frameRate < 0 ∨ frameRate > 60 then 30 else frameRate

/-- Case `'s'` of `Args::Args` (lines 43-47), `v` being the value of `strtol`. -/
def Args.subsampling (v : Int) : Int :=
  let subsampling := toInt v
  if subsampling < 0 ∨ subsampling > 1 then 0 else subsampling

/-! ## Data model of `ikvm_video.cpp` -/

/-- Modelled from the spec: `Video::Buffer` is declared in `ikvm_video.hpp`, which is not
among the sources; the fields are those `ikvm_video.cpp` reads and writes (spec §3,
CaptureBuffer). -/
structure Buffer where
  data : Nat
  queued : Bool
  payload : Nat
  size : Nat
deriving DecidableEq, Repr

/-- Modelled from the spec: the value-initialised `Buffer` that `std::vector::resize`
appends (spec §3: mapping absent, payload 0, not queued). -/
def Buffer.empty : Buffer := { data := 0, queued := false, payload := 0, size := 0 }

/-- The requests the session sends to the kernel. -/
inductive Req
  | openDev
  | querycap
  | gFmt
  | sParm (denominator : Nat)
  | sCtrl (value : Nat)
  | streamOff
  | streamOn
  | reqbufs (count : Nat)
  | queryDvTimings
  | sDvTimings (width height : Nat)
  | querybuf (index : Nat)
  | mmap (length offset : Nat)
  | qbuf (index : Nat)
  | dqbuf
  | select
deriving DecidableEq, Repr

/-- What a request leaves behind: the return value `rc` (the descriptor for `open`, the
number of ready descriptors for `select`) and the fields of the structure the kernel
filled in that the session reads afterwards (each a `__u32` in `<linux/videodev2.h>`;
`addr` is the pointer `mmap` returns). -/
structure Reply where
  rc : Int := 0
  capabilities : Nat := 0
  width : Nat := 0
  height : Nat := 0
  pixelformat : Nat := 0
  count : Nat := 0
  index : Nat := 0
  flags : Nat := 0
  bytesused : Nat := 0
  length : Nat := 0
  offset : Nat := 0
  addr : Nat := 0
deriving DecidableEq, Repr

/-- The kernel and the capture hardware: the reply to the `n`-th request. -/
abbrev Device := Nat → Req → Reply

/-- A device that answers each request the same way on every call. -/
def Device.Stateless (dev : Device) : Prop := ∀ (m n : Nat) (q : Req), dev m q = dev n q

/-- The lines written to `std::cout` (without the `strerror` text). -/
inductive Msg
  | failedQueueBuffer
  | failedQueryTimings
  | failedGetNewResolution (width height : Nat)
  | failedStopStreaming
  | failedZeroBuffers
  | failedQueryTimingsRestart
  | failedSetTimings
  | failedRequestBuffers
  | failedQueryBuffer
  | failedMmapBuffer
  | failedStartStreaming
  | failedOpenDevice
  | failedQueryCapabilities
  | deviceUnsupported
  | failedQueryFormat
  | failedSetFrameRate
  | failedSetSubsampling
  | pixelFormatNotSupported (pixelformat : Nat)
  | pixelFormatIsMJPEG
  | pixelFormatIsYUYV
deriving DecidableEq, Repr

/-! Constants of `<linux/videodev2.h>` and `<sys/mman.h>`. -/

def V4L2_BUF_FLAG_ERROR : Nat := 0x40
def V4L2_CAP_VIDEO_CAPTURE : Nat := 0x1
def V4L2_CAP_STREAMING : Nat := 0x4000000
def V4L2_PIX_FMT_YUYV : Nat := 0x56595559
def V4L2_PIX_FMT_RGB24 : Nat := 0x33424752
def V4L2_PIX_FMT_JPEG : Nat := 0x4745504A
def V4L2_PIX_FMT_MJPEG : Nat := 0x47504A4D
def V4L2_JPEG_CHROMA_SUBSAMPLING_444 : Nat := 0
def V4L2_JPEG_CHROMA_SUBSAMPLING_420 : Nat := 2
/-- The pointer `(void*)-1` on a target with 64-bit addresses. -/
def MAP_FAILED : Nat := 2 ^ 64 - 1

/-- Modelled from the spec: the members of `ikvm::Video` are declared in
`ikvm_video.hpp`, which is not among the sources; these are the members
`ikvm_video.cpp` reads and writes (spec §3, CaptureSession state).  `trace` and `log`
are ghost fields, newest entry first. -/
structure Video where
  resizeAfterOpen : Bool
  timingsError : Bool
  fd : Int
  frameRate : Int
  lastFrameIndex : Int
  height : Nat
  width : Nat
  subSampling : Int
  pixelformat : Nat
  buffers : List Buffer
  trace : List (Req × Reply)
  log : List Msg
deriving DecidableEq, Repr

/-- The conversion of an `int` to `__u32`: reduction modulo `2^32`. -/
def toU32 (z : Int) : Nat := (z % 2 ^ 32).toNat

/-- The constructor `Video::Video` (lines 24-28). -/
def Video.init (fr sub : Int) : Video :=
  { resizeAfterOpen := false, timingsError := false, fd := -1, frameRate := fr,
    lastFrameIndex := -1, height := 600, width := 800, subSampling := sub,
    pixelformat := V4L2_PIX_FMT_YUYV, buffers := [], trace := [], log := [] }

/-- One request to the device: the reply, and the session with the exchange recorded. -/
def Video.ioctl (dev : Device) (v : Video) (q : Req) : Reply × Video :=
  let r := dev v.trace.length q
  (r, { v with trace := (q, r) :: v.trace })

/-- One line on `std::cout`. -/
def Video.say (v : Video) (m : Msg) : Video := { v with log := m :: v.log }

/-- The statement `if (c) std::cout << m`. -/
def Video.sayIf (v : Video) (c : Bool) (m : Msg) : Video :=
  { v with log := if c then m :: v.log else v.log }

/-- The assignment `buffers[i] = f(buffers[i])`. -/
def setAt : List Buffer → Nat → (Buffer → Buffer) → List Buffer
  | [], _, _ => []
  | b :: bs, 0, f => f b :: bs
  | b :: bs, i + 1, f => b :: setAt bs i f

/-- The call `buffers.resize(n)`: truncate, or pad with value-initialised buffers. -/
def vecResize (bs : List Buffer) (n : Nat) : List Buffer :=
  bs.take n ++ List.replicate (n - bs.length) Buffer.empty

/-- The loop of lines 196-203: is some buffer mapped? -/
def anyMapped (bs : List Buffer) : Bool := bs.any (fun b => b.data ≠ 0)

/-- The loop of lines 214-222 and 416-424: unmap every mapped buffer. -/
def unmapAll (bs : List Buffer) : List Buffer :=
  bs.map (fun b => if b.data ≠ 0 then { b with data := 0, queued := false } else b)

/-- The loop of lines 214-222 and 416-424 on the session's pool. -/
def unmap (v : Video) : Video := { v with buffers := unmapAll v.buffers }

/-! ## `Video::getData` and `Video::getFrame` -/

/-- The method `Video::getData` (lines 35-43).  `some 0` is `nullptr`; `none` is a read
past the end of the pool. -/
def getData (v : Video) : Option Nat :=
  if v.lastFrameIndex ≥ 0 then
    (v.buffers[v.lastFrameIndex.toNat]?).map (fun b => b.data)
  else
    some 0

/-- Lines 82 and 86-87 of `Video::getFrame`: the buffer dequeued is not queued any more,
it is the last frame, and its payload is the byte count reported. -/
def keepFrame (buf : Reply) (v : Video) : Video :=
  let v1 := { v with buffers := setAt v.buffers buf.index (fun b => { b with queued := false }) }
  let v2 := { v1 with lastFrameIndex := (buf.index : Int) }
  { v2 with buffers := setAt v2.buffers buf.index (fun b => { b with payload := buf.bytesused }) }

/-- Lines 82 and 92 of `Video::getFrame`: the buffer dequeued is not queued any more and
has no payload. -/
def dropFrame (buf : Reply) (v : Video) : Video :=
  let v1 := { v with buffers := setAt v.buffers buf.index (fun b => { b with queued := false }) }
  { v1 with buffers := setAt v1.buffers buf.index (fun b => { b with payload := 0 }) }

/-- The `do ... while (rc >= 0)` loop of lines 77-95, run for at most `fuel` rounds.
`none` when the rounds are used up, or the device hands back an index outside the pool
(line 82 writes past the end of the vector), or an index from `2^31` on for a frame to
keep (as an `int` it is negative, and line 87 writes outside the vector). -/
def dequeue : Nat → Device → Video → Option Video
  | 0, _, _ => none
  | fuel + 1, dev, v =>
    let (buf, v1) := v.ioctl dev Req.dqbuf
    if buf.rc ≥ 0 then
      if buf.index < v1.buffers.length then
        if buf.flags &&& V4L2_BUF_FLAG_ERROR = 0 then
          if buf.index < 2 ^ 31 then some (keepFrame buf v1) else none
        else dequeue fuel dev (dropFrame buf v1)
      else
        none
    else
      some v1

/-- Lines 109-122 of `Video::getFrame`: hand buffer `i` back to the device; it counts as
queued when the request succeeds. -/
def resubmit (dev : Device) (i : Nat) (v : Video) : Video :=
  let (r, v1) := v.ioctl dev (Req.qbuf i)
  if r.rc ≠ 0 then v1.say Msg.failedQueueBuffer
  else { v1 with buffers := setAt v1.buffers i (fun b => { b with queued := true }) }

/-- The body of the loop of lines 100-124 for one `i`. -/
def requeueOne (dev : Device) (i : Nat) (v : Video) : Video :=
  if (i : Int) = v.lastFrameIndex then v
  else
    match v.buffers[i]? with
    | none => v
    | some b => if b.queued then v else resubmit dev i v

/-- The loop of lines 100-124, from `i` for `n` rounds. -/
def requeue (dev : Device) : Nat → Nat → Video → Video
  | _, 0, v => v
  | i, n + 1, v => requeue dev (i + 1) n (requeueOne dev i v)

/-- The method `Video::getFrame` (lines 45-125); `fuel` bounds the dequeue loop. -/
def getFrame (fuel : Nat) (dev : Device) (v : Video) : Option Video :=
  if v.fd < 0 then some v
  else
    let (sel, v1) := v.ioctl dev Req.select
    let dequeued := if sel.rc > 0 then dequeue fuel dev v1 else some v1
    dequeued.map (fun v2 => requeue dev 0 v2.buffers.length v2)

/-! ## `Video::stop`, `Video::resize`, `Video::start`, `Video::needsResize` -/

/-- The method `Video::stop` (lines 397-428). -/
def stop (dev : Device) (v : Video) : Video :=
  if v.fd < 0 then v
  else
    let v1 := { v with lastFrameIndex := -1 }
    let (r, v2) := v1.ioctl dev Req.streamOff
    let v3 := v2.sayIf (r.rc ≠ 0) Msg.failedStopStreaming
    { unmap v3 with fd := -1 }

/-- The body of the loop of lines 268-299 for one `i`. -/
def mapOne (dev : Device) (i : Nat) (v : Video) : Video :=
  let (buf, v1) := v.ioctl dev (Req.querybuf i)
  let v2 := v1.sayIf (buf.rc < 0) Msg.failedQueryBuffer
  let (m, v3) := v2.ioctl dev (Req.mmap buf.length buf.offset)
  let v4 := { v3 with buffers := setAt v3.buffers i (fun b => { b with data := m.addr }) }
  let v5 := v4.sayIf (m.addr = MAP_FAILED) Msg.failedMmapBuffer
  let v6 := { v5 with buffers := setAt v5.buffers i (fun b => { b with size := buf.length }) }
  let (r, v7) := v6.ioctl dev (Req.qbuf i)
  let v8 := v7.sayIf (r.rc < 0) Msg.failedQueueBuffer
  { v8 with buffers := setAt v8.buffers i (fun b => { b with queued := true }) }

/-- The loop of lines 268-299, from `i` for `n` rounds. -/
def mapLoop (dev : Device) : Nat → Nat → Video → Video
  | _, 0, v => v
  | i, n + 1, v => mapLoop dev (i + 1) n (mapOne dev i v)

/-- Lines 256-266 of `Video::resize`: request three buffers and size the pool to the
count the device granted. -/
def requestBuffers (dev : Device) (v : Video) : Video :=
  let (req, v1) := v.ioctl dev (Req.reqbufs 3)
  let v2 := v1.sayIf (req.rc < 0 ∨ req.count < 2) Msg.failedRequestBuffers
  { v2 with buffers := vecResize v2.buffers req.count }

/-- Lines 301-305 of `Video::resize`: switch streaming on. -/
def streamOn (dev : Device) (v : Video) : Video :=
  let (strm, v1) := v.ioctl dev Req.streamOn
  v1.sayIf (strm.rc ≠ 0) Msg.failedStartStreaming

/-- Lines 256-305 of `Video::resize`: request buffers, map and queue each one, switch
streaming on. -/
def allocate (dev : Device) (v : Video) : Video :=
  let v1 := requestBuffers dev v
  streamOn dev (mapLoop dev 0 v1.buffers.length v1)

/-- Lines 205-222 of `Video::resize` when some buffer is mapped: switch streaming off
and unmap every mapped buffer. -/
def halt (dev : Device) (v : Video) : Video :=
  let (off, v1) := v.ioctl dev Req.streamOff
  let v2 := v1.sayIf (off.rc ≠ 0) Msg.failedStopStreaming
  unmap v2

/-- Lines 228-239 of `Video::resize`: release the device's buffers and query the
timings again. -/
def requery (dev : Device) (v : Video) : Reply × Video :=
  let (req, v1) := v.ioctl dev (Req.reqbufs 0)
  let v2 := v1.sayIf (req.rc < 0) Msg.failedZeroBuffers
  v2.ioctl dev Req.queryDvTimings

/-- Lines 247-253 of `Video::resize`: set the timings just read and clear the pool. -/
def applyTimings (dev : Device) (timings : Reply) (v : Video) : Video :=
  let (applied, v1) := v.ioctl dev (Req.sDvTimings timings.width timings.height)
  let v2 := v1.sayIf (applied.rc < 0) Msg.failedSetTimings
  { v2 with buffers := [] }

/-- Lines 323-387 of `Video::start`: open the device, query its capabilities and its
format, set frame rate and subsampling, adopt the reported format. -/
def negotiate (dev : Device) (v : Video) : Video :=
  let (o, v1) := v.ioctl dev Req.openDev
  let v2 := { v1 with fd := o.rc }
  let v3 := v2.sayIf (v2.fd < 0) Msg.failedOpenDevice
  let (cap, v4) := v3.ioctl dev Req.querycap
  let v5 := v4.sayIf (cap.rc < 0) Msg.failedQueryCapabilities
  let v6 := v5.sayIf (cap.capabilities &&& V4L2_CAP_VIDEO_CAPTURE = 0 ∨
    cap.capabilities &&& V4L2_CAP_STREAMING = 0) Msg.deviceUnsupported
  let (fmt, v7) := v6.ioctl dev Req.gFmt
  let v8 := v7.sayIf (fmt.rc < 0) Msg.failedQueryFormat
  let (sparm, v9) := v8.ioctl dev (Req.sParm (toU32 v8.frameRate))
  let v10 := v9.sayIf (sparm.rc < 0) Msg.failedSetFrameRate
  let (ctrl, v11) := v10.ioctl dev (Req.sCtrl
    (if v10.subSampling ≠ 0 then V4L2_JPEG_CHROMA_SUBSAMPLING_420
     else V4L2_JPEG_CHROMA_SUBSAMPLING_444))
  let v12 := v11.sayIf (ctrl.rc < 0) Msg.failedSetSubsampling
  let v13 := { v12 with height := fmt.height, width := fmt.width, pixelformat := fmt.pixelformat }
  let unsupported : Bool :=
    v13.pixelformat ≠ V4L2_PIX_FMT_RGB24 ∧ v13.pixelformat ≠ V4L2_PIX_FMT_JPEG
  let v14 := v13.sayIf unsupported (Msg.pixelFormatNotSupported v13.pixelformat)
  let v15 := v14.sayIf (unsupported ∧ v14.pixelformat = V4L2_PIX_FMT_MJPEG) Msg.pixelFormatIsMJPEG
  v15.sayIf (unsupported ∧ v15.pixelformat = V4L2_PIX_FMT_YUYV) Msg.pixelFormatIsYUYV

/-- Lines 391-394 of `Video::start`: latch `resizeAfterOpen` when the resolution differs
from the one before the call. -/
def latch (oldHeight oldWidth : Nat) (v : Video) : Video :=
  { v with resizeAfterOpen :=
      if oldHeight ≠ v.height ∨ oldWidth ≠ v.width then true else v.resizeAfterOpen }

/-- Lines 308-395 of `Video::start`, the call `resize()` of line 389 being `rz`. -/
def startWith (rz : Video → Option Video) (dev : Device) (v : Video) : Option Video :=
  if v.fd ≥ 0 then some v
  else (rz (negotiate dev v)).map (latch v.height v.width)

/-- The method `Video::resize` (lines 177-306).  `fuel` is the number of nested calls
of `restart()` still allowed; `none` when a further one is needed.  The call
`restart()` of line 243 is written out as `stop()` followed by the body of `start()`
(see `restart` below). -/
def resize : Nat → Device → Video → Option Video
  | fuel, dev, v =>
    if v.fd < 0 then some v
    else if v.resizeAfterOpen then some { v with resizeAfterOpen := false }
    else if anyMapped v.buffers then
      let (timings, v1) := requery dev (halt dev v)
      if timings.rc < 0 then
        let v2 := v1.say Msg.failedQueryTimingsRestart
        match fuel with
        | 0 => none
        | n + 1 => startWith (resize n dev) dev (stop dev v2)
      else
        some (allocate dev (applyTimings dev timings v1))
    else
      some (allocate dev (unmap v))

/-- The method `Video::start` (lines 308-395). -/
def start (fuel : Nat) (dev : Device) (v : Video) : Option Video :=
  startWith (resize fuel dev) dev v

/-- Modelled from the spec: `Video::restart` is defined in `ikvm_video.hpp`, which is not
among the sources; spec §4.1: "composition of stop() then start()". -/
def restart (fuel : Nat) (dev : Device) (v : Video) : Option Video :=
  start fuel dev (stop dev v)

/-- Lines 146-150 of `Video::needsResize`: report a failed timing query once. -/
def noteTimingsError (v : Video) : Video :=
  if ¬ v.timingsError then { v.say Msg.failedQueryTimings with timingsError := true } else v

/-- Lines 160-171 of `Video::needsResize`: adopt the timings read, drop the last frame. -/
def adopt (timings : Reply) (v : Video) : Video :=
  let v1 := { v with width := timings.width, height := timings.height }
  let v2 := v1.sayIf (v1.width = 0 ∨ v1.height = 0) (Msg.failedGetNewResolution v1.width v1.height)
  { v2 with lastFrameIndex := -1 }

/-- The method `Video::needsResize` (lines 127-175): the value returned and the session
afterwards.  `fuel` is the number of nested calls of `restart()` allowed. -/
def needsResize (fuel : Nat) (dev : Device) (v : Video) : Option (Bool × Video) :=
  if v.fd < 0 then some (false, v)
  else if v.resizeAfterOpen then some (true, v)
  else
    let (timings, v1) := v.ioctl dev Req.queryDvTimings
    if timings.rc < 0 then
      match fuel with
      | 0 => none
      | n + 1 => (restart n dev (noteTimingsError v1)).map (fun v2 => (false, v2))
    else
      let v2 := { v1 with timingsError := false }
      if timings.width ≠ v2.width ∨ timings.height ≠ v2.height then
        some (true, adopt timings v2)
      else
        some (false, v2)

/-! ## Notions used to state the properties -/

/-- The exchanges with the device made between `v` and `v'`, newest first. -/
def newEvents (v v' : Video) : List (Req × Reply) :=
  v'.trace.take (v'.trace.length - v.trace.length)

/-- Between `v` and `v'` the trace only grew, by exchanges satisfying `P`. -/
def Emits (P : Req × Reply → Prop) (v v' : Video) : Prop :=
  ∃ es, v'.trace = es ++ v.trace ∧ ∀ e ∈ es, P e

/-- Exchanges other than a timing query and a dequeue. -/
def Plain (e : Req × Reply) : Prop := e.1 ≠ Req.queryDvTimings ∧ e.1 ≠ Req.dqbuf

/-- The paths of `Video::resize` open to a session none of whose buffers is mapped
(lines 185-194 and 256-305); none of them reaches `restart()`. -/
def resizeDirect (dev : Device) (v : Video) : Video :=
  if v.fd < 0 then v
  else if v.resizeAfterOpen then { v with resizeAfterOpen := false }
  else allocate dev (unmap v)

/-- The method `Video::start` on a session none of whose buffers is mapped: the call of
`resize()` in line 389 takes one of the paths of `resizeDirect`. -/
def startDirect (dev : Device) (v : Video) : Video :=
  if v.fd ≥ 0 then v
  else latch v.height v.width (resizeDirect dev (negotiate dev v))

/-- How many times the line "Failed to query timings" of `needsResize` is in the log. -/
def timingsLines (v : Video) : Nat := v.log.count Msg.failedQueryTimings

/-- A device that is open under descriptor 3, reports 1024x768 JPEG, grants three
buffers of 4096 bytes and never has a timing to report. -/
def devNoSignal : Device := fun _ q =>
  match q with
  | Req.openDev => { rc := 3 }
  | Req.gFmt => { width := 1024, height := 768, pixelformat := V4L2_PIX_FMT_JPEG }
  | Req.reqbufs _ => { count := 3 }
  | Req.querybuf i => { length := 4096, offset := i * 4096 }
  | Req.mmap _ off => { addr := 4096 + off }
  | Req.queryDvTimings => { rc := -1 }
  | _ => {}

/-- An open session at 1024x768 with one mapped, queued buffer. -/
def vOpen : Video :=
  { Video.init 30 0 with
    fd := 3, width := 1024, height := 768,
    buffers := [{ data := 4096, queued := true, payload := 0, size := 4096 }] }

/-- A device like `devNoSignal` whose timing query succeeds and reports 1024x768. -/
def devSteady : Device := fun _ q =>
  match q with
  | Req.openDev => { rc := 3 }
  | Req.gFmt => { width := 1024, height := 768, pixelformat := V4L2_PIX_FMT_JPEG }
  | Req.reqbufs _ => { count := 3 }
  | Req.querybuf i => { length := 4096, offset := i * 4096 }
  | Req.mmap _ off => { addr := 4096 + off }
  | Req.queryDvTimings => { width := 1024, height := 768 }
  | _ => {}

/-- What one round of the loop of lines 268-299 makes of buffer `i` when the round
begins at request number `t`: mapped where `mmap` says, sized, queued. -/
def mappedAt (dev : Device) (t i : Nat) (b : Buffer) : Buffer :=
  { b with
    data := (dev (t + 1) (Req.mmap (dev t (Req.querybuf i)).length
      (dev t (Req.querybuf i)).offset)).addr,
    size := (dev t (Req.querybuf i)).length,
    queued := true }

/-- A device like `devSteady` at 800x600 that grants a single buffer. -/
def devOne : Device := fun _ q =>
  match q with
  | Req.openDev => { rc := 3 }
  | Req.gFmt => { width := 800, height := 600, pixelformat := V4L2_PIX_FMT_JPEG }
  | Req.reqbufs _ => { count := 1 }
  | Req.querybuf i => { length := 4096, offset := i * 4096 }
  | Req.mmap _ off => { addr := 4096 + off }
  | Req.queryDvTimings => { width := 800, height := 600 }
  | _ => {}

/-- The public operations of a session, each with its bound on nested restarts (for
`getFrame`, on rounds of the dequeue loop). -/
inductive Op
  | start (fuel : Nat)
  | stop
  | restart (fuel : Nat)
  | needsResize (fuel : Nat)
  | resize (fuel : Nat)
  | getFrame (fuel : Nat)
deriving DecidableEq, Repr

/-- One public operation; `none` when it does not return within its bound. -/
def Op.step (dev : Device) : Op → Video → Option Video
  | Op.start n, v => ikvm.start n dev v
  | Op.stop, v => some (ikvm.stop dev v)
  | Op.restart n, v => ikvm.restart n dev v
  | Op.needsResize n, v => (ikvm.needsResize n dev v).map Prod.snd
  | Op.resize n, v => ikvm.resize n dev v
  | Op.getFrame n, v => ikvm.getFrame n dev v

/-- Whether the caller may invoke `op` on `v`: `resize` only where `guard` holds. -/
def Op.admitted (guard : Video → Bool) : Op → Video → Bool
  | Op.resize _, v => guard v
  | _, _ => true

/-- A sequence of public operations, in order. -/
def run (guard : Video → Bool) (dev : Device) : List Op → Video → Option Video
  | [], v => some v
  | op :: ops, v =>
    if op.admitted guard v then (op.step dev v).bind (run guard dev ops) else none

/-- Any sequence of public operations is allowed. -/
def anyOrder : Video → Bool := fun _ => true

/-- The session `start()` leaves when the device is `devOne`. -/
def vOne : Video := (start 0 devOne (Video.init 30 0)).getD (Video.init 30 0)

/-- The session `resize()` makes of `vOpen` when the device is `devSteady`. -/
def vSteady : Video := (resize 0 devSteady vOpen).getD vOpen

/-- The operational state of a session: open or closed, the negotiated format, the
latch, the pool (its size, each buffer's mapping and queued flag), the last frame. -/
structure Operational where
  isOpen : Bool
  width : Nat
  height : Nat
  pixelformat : Nat
  resizeAfterOpen : Bool
  poolSize : Nat
  mapped : List Nat
  queued : List Bool
  lastFrameIndex : Int
deriving DecidableEq, Repr

/-- The operational state of `v`. -/
def Video.operational (v : Video) : Operational :=
  { isOpen := decide (0 ≤ v.fd), width := v.width, height := v.height,
    pixelformat := v.pixelformat, resizeAfterOpen := v.resizeAfterOpen,
    poolSize := v.buffers.length, mapped := v.buffers.map (fun b => b.data),
    queued := v.buffers.map (fun b => b.queued), lastFrameIndex := v.lastFrameIndex }

/-- The session `start()` makes of the constructed one when the device is `devSteady`. -/
def vOnce : Video := (start 0 devSteady (Video.init 30 0)).getD (Video.init 30 0)

/-- The session `start()`, `stop()`, `start()` make of the constructed one when the
device is `devSteady`. -/
def vTwice : Video := (start 0 devSteady (stop devSteady vOnce)).getD (Video.init 30 0)

/-- A device like `devSteady` at 800x600, the resolution of the constructed session. -/
def devSvga : Device := fun _ q =>
  match q with
  | Req.openDev => { rc := 3 }
  | Req.gFmt => { width := 800, height := 600, pixelformat := V4L2_PIX_FMT_JPEG }
  | Req.reqbufs _ => { count := 3 }
  | Req.querybuf i => { length := 4096, offset := i * 4096 }
  | Req.mmap _ off => { addr := 4096 + off }
  | Req.queryDvTimings => { width := 800, height := 600 }
  | _ => {}

/-- A dequeue that succeeded and handed back a buffer not flagged as errored. -/
def Good (e : Req × Reply) : Prop :=
  e.1 = Req.dqbuf ∧ 0 ≤ e.2.rc ∧ e.2.flags &&& V4L2_BUF_FLAG_ERROR = 0

instance (e : Req × Reply) : Decidable (Good e) := by unfold Good; infer_instance

/-- A device like `devSvga` that always has buffer 1 ready, with 100 bytes in it. -/
def devReady : Device := fun _ q =>
  match q with
  | Req.openDev => { rc := 3 }
  | Req.gFmt => { width := 800, height := 600, pixelformat := V4L2_PIX_FMT_JPEG }
  | Req.reqbufs _ => { count := 3 }
  | Req.querybuf i => { length := 4096, offset := i * 4096 }
  | Req.mmap _ off => { addr := 4096 + off }
  | Req.queryDvTimings => { width := 800, height := 600 }
  | Req.select => { rc := 1 }
  | Req.dqbuf => { index := 1, bytesused := 100 }
  | _ => {}

/-- A device like `devReady` that, once streaming (from its request number 16 on),
refuses every buffer handed back to it, and whose first dequeue (request number 17)
hands over buffer 0 flagged as errored. -/
def devBusy : Device := fun n q =>
  match q with
  | Req.openDev => { rc := 3 }
  | Req.gFmt => { width := 800, height := 600, pixelformat := V4L2_PIX_FMT_JPEG }
  | Req.reqbufs _ => { count := 3 }
  | Req.querybuf i => { length := 4096, offset := i * 4096 }
  | Req.mmap _ off => { addr := 4096 + off }
  | Req.queryDvTimings => { width := 800, height := 600 }
  | Req.select => { rc := 1 }
  | Req.dqbuf =>
    if n = 17 then { index := 0, flags := V4L2_BUF_FLAG_ERROR }
    else { index := 1, bytesused := 100 }
  | Req.qbuf _ => if 16 ≤ n then { rc := -1 } else {}
  | _ => {}

/-- The session `start()` makes of the constructed one on `devReady`. -/
def vReady : Video := (start 0 devReady (Video.init 30 0)).getD (Video.init 30 0)

/-- The session `getFrame()` makes of `vReady` on `devReady`. -/
def vReadyFrame : Video := (getFrame 1 devReady vReady).getD vReady

/-- The session `start()` makes of the constructed one on `devBusy`. -/
def vBusy : Video := (start 0 devBusy (Video.init 30 0)).getD (Video.init 30 0)

/-- The session `getFrame()` makes of `vBusy` on `devBusy`. -/
def vBusyFrame : Video := (getFrame 2 devBusy vBusy).getD vBusy

/-- Exchanges other than a dequeue. -/
def NoDq (e : Req × Reply) : Prop := e.1 ≠ Req.dqbuf

/-- An operation that made no dequeue and either dropped the last frame, or kept it and
kept the descriptor, or ran on a closed session and kept the last frame index. -/
def Mild (v v' : Video) : Prop :=
  Emits NoDq v v' ∧
    (v'.lastFrameIndex = -1 ∨
      (v'.lastFrameIndex = v.lastFrameIndex ∧ v'.fd = v.fd) ∨
      (v.fd < 0 ∧ v'.lastFrameIndex = v.lastFrameIndex))

/-- A mild operation that, where it kept the last frame of an open session, kept the
pool as well. -/
def Calm (v v' : Video) : Prop :=
  Emits NoDq v v' ∧
    (v'.lastFrameIndex = -1 ∨
      (v'.lastFrameIndex = v.lastFrameIndex ∧ v'.fd = v.fd ∧ v'.buffers = v.buffers) ∨
      (v.fd < 0 ∧ v'.lastFrameIndex = v.lastFrameIndex))

/-- The calling discipline of the frame loop for `resize()`: it is invoked only when
the last frame is unset or the latch is set, which is the case right after a
`needsResize()` that returned true. -/
def afterNeedsResize : Video → Bool :=
  fun v => decide (v.lastFrameIndex = -1) || v.resizeAfterOpen

/-- The invariant of spec §3: `lastFrameIndex`, if set, is the index of a pool buffer with
queued = false and payload > 0. -/
def FrameHeld (v : Video) : Prop :=
  v.lastFrameIndex = -1 ∨
    (0 ≤ v.lastFrameIndex ∧
      ((v.buffers[v.lastFrameIndex.toNat]?).any (fun b => !b.queued && decide (0 < b.payload)))
        = true)

instance (v : Video) : Decidable (FrameHeld v) := by unfold FrameHeld; infer_instance

/-- The part of that invariant the code keeps: `lastFrameIndex`, if set, is the index of a
pool buffer with queued = false. -/
def FrameKept (v : Video) : Prop :=
  v.lastFrameIndex = -1 ∨
    ∃ (k : Nat) (b : Buffer), v.lastFrameIndex = (k : Int) ∧ v.buffers[k]? = some b ∧
      b.queued = false

/-- Repeated calls of `needsResize()`: the values returned, in order, and the session. -/
def poll (fuel : Nat) (dev : Device) : Nat → Video → Option (List Bool × Video)
  | 0, v => some ([], v)
  | k + 1, v =>
    match needsResize fuel dev v with
    | none => none
    | some (r, v') => (poll fuel dev k v').map (fun p => (r :: p.1, p.2))

/-- A device like `devReady` whose buffers come back with no bytes in them. -/
def devEmpty : Device := fun _ q =>
  match q with
  | Req.openDev => { rc := 3 }
  | Req.gFmt => { width := 800, height := 600, pixelformat := V4L2_PIX_FMT_JPEG }
  | Req.reqbufs _ => { count := 3 }
  | Req.querybuf i => { length := 4096, offset := i * 4096 }
  | Req.mmap _ off => { addr := 4096 + off }
  | Req.queryDvTimings => { width := 800, height := 600 }
  | Req.select => { rc := 1 }
  | Req.dqbuf => { index := 1, bytesused := 0 }
  | _ => {}

/-- The session after `start()`, `getFrame()`, `resize()` on `devReady`. -/
def vResized : Video :=
  (run anyOrder devReady [Op.start 0, Op.getFrame 1, Op.resize 1] (Video.init 30 0)).getD
    (Video.init 30 0)

/-- The session after `start()`, `getFrame()` on `devEmpty`. -/
def vEmptyFrame : Video :=
  (run anyOrder devEmpty [Op.start 0, Op.getFrame 1] (Video.init 30 0)).getD (Video.init 30 0)

/-- A device like `devReady` at 1024x768. -/
def devHd : Device := fun _ q =>
  match q with
  | Req.openDev => { rc := 3 }
  | Req.gFmt => { width := 1024, height := 768, pixelformat := V4L2_PIX_FMT_JPEG }
  | Req.reqbufs _ => { count := 3 }
  | Req.querybuf i => { length := 4096, offset := i * 4096 }
  | Req.mmap _ off => { addr := 4096 + off }
  | Req.queryDvTimings => { width := 1024, height := 768 }
  | Req.select => { rc := 1 }
  | Req.dqbuf => { index := 1, bytesused := 100 }
  | _ => {}

/-- The session after `start()`, `getFrame()`, `needsResize()`, `resize()` on `devHd`. -/
def vLatched : Video :=
  (run afterNeedsResize devHd
    [Op.start 0, Op.getFrame 1, Op.needsResize 1, Op.resize 1] (Video.init 30 0)).getD
    (Video.init 30 0)

/-- The session after `start()`, `getFrame()`, `start()` on `devReady`. -/
def vRestarted : Video :=
  (run anyOrder devReady [Op.start 0, Op.getFrame 1, Op.start 0] (Video.init 30 0)).getD
    (Video.init 30 0)

/-- The session after `start()`, `needsResize()`, `getFrame()`, `needsResize()` on
`devReady`. -/
def vLoop : Video :=
  (run afterNeedsResize devReady
    [Op.start 0, Op.needsResize 1, Op.getFrame 1, Op.needsResize 1] (Video.init 30 0)).getD
    (Video.init 30 0)

/-! ## Lemmas -/

@[simp] theorem setAt_length (bs : List Buffer) (i : Nat) (f : Buffer → Buffer) :
    (setAt bs i f).length = bs.length := by
  induction bs generalizing i with
  | nil => rfl
  | cons b bs ih => cases i <;> simp [setAt, ih]

theorem setAt_getElem? (bs : List Buffer) (i : Nat) (f : Buffer → Buffer) (j : Nat) :
    (setAt bs i f)[j]? = if j = i then (bs[j]?).map f else bs[j]? := by
  induction bs generalizing i j with
  | nil => simp [setAt]
  | cons b bs ih =>
    cases i with
    | zero => cases j <;> simp [setAt]
    | succ i => cases j <;> simp [setAt, ih]

theorem anyMapped_unmapAll (bs : List Buffer) : anyMapped (unmapAll bs) = false := by
  induction bs with
  | nil => rfl
  | cons b bs ih =>
    simp only [anyMapped, unmapAll, List.map_cons, List.any_cons] at ih ⊢
    rw [ih]
    by_cases h : b.data = 0 <;> simp [h]

/-! ### The trace only grows -/

theorem Emits.refl (P : Req × Reply → Prop) (v : Video) : Emits P v v :=
  ⟨[], by simp, by simp⟩

theorem Emits.trans {P : Req × Reply → Prop} {a b c : Video}
    (h1 : Emits P a b) (h2 : Emits P b c) : Emits P a c := by
  obtain ⟨e1, t1, p1⟩ := h1
  obtain ⟨e2, t2, p2⟩ := h2
  refine ⟨e2 ++ e1, by simp [t2, t1], ?_⟩
  intro e he
  rcases List.mem_append.mp he with h | h
  · exact p2 e h
  · exact p1 e h

theorem Emits.mono {P Q : Req × Reply → Prop} {a b : Video} (h : Emits P a b)
    (hpq : ∀ e, P e → Q e) : Emits Q a b := by
  obtain ⟨es, t, p⟩ := h
  exact ⟨es, t, fun e he => hpq e (p e he)⟩

theorem Emits.retrace {P : Req × Reply → Prop} {a b c : Video} (h : Emits P a b)
    (hc : c.trace = b.trace) : Emits P a c := by
  obtain ⟨es, t, p⟩ := h
  exact ⟨es, by rw [hc, t], p⟩

theorem Emits.forall_new {P : Req × Reply → Prop} {a b : Video} (h : Emits P a b) :
    ∀ e ∈ newEvents a b, P e := by
  obtain ⟨es, t, p⟩ := h
  have : newEvents a b = es := by simp [newEvents, t]
  rw [this]; exact p

theorem newEvents_of_eq (v v' : Video) (es : List (Req × Reply))
    (h : v'.trace = es ++ v.trace) : newEvents v v' = es := by simp [newEvents, h]

theorem emits_of_eq {P : Req × Reply → Prop} {v v' : Video} (es : List (Req × Reply))
    (h : v'.trace = es ++ v.trace) (hp : ∀ e ∈ es, P e) : Emits P v v' := ⟨es, h, hp⟩

theorem stop_emits (dev : Device) (v : Video) : Emits Plain v (stop dev v) := by
  unfold stop
  by_cases h : v.fd < 0
  · simp only [h, if_true]; exact Emits.refl _ _
  · simp only [h, if_false]
    exact emits_of_eq [_] rfl (by simp [Plain])

theorem mapOne_emits (dev : Device) (i : Nat) (v : Video) : Emits Plain v (mapOne dev i v) :=
  emits_of_eq [_, _, _] rfl (by simp [Plain])

theorem mapLoop_emits (dev : Device) (i n : Nat) (v : Video) :
    Emits Plain v (mapLoop dev i n v) := by
  induction n generalizing i v with
  | zero => exact Emits.refl _ _
  | succ n ih => exact (mapOne_emits dev i v).trans (ih (i + 1) (mapOne dev i v))

theorem requestBuffers_emits (dev : Device) (v : Video) :
    Emits Plain v (requestBuffers dev v) :=
  emits_of_eq [_] rfl (by simp [Plain])

theorem streamOn_emits (dev : Device) (v : Video) : Emits Plain v (streamOn dev v) :=
  emits_of_eq [_] rfl (by simp [Plain])

theorem allocate_emits (dev : Device) (v : Video) : Emits Plain v (allocate dev v) :=
  ((requestBuffers_emits dev v).trans (mapLoop_emits dev 0 _ _)).trans (streamOn_emits dev _)

theorem negotiate_emits (dev : Device) (v : Video) : Emits Plain v (negotiate dev v) :=
  emits_of_eq [_, _, _, _, _] rfl (by simp [Plain])

theorem negotiate_frame (dev : Device) (v : Video) :
    (negotiate dev v).buffers = v.buffers ∧
    (negotiate dev v).lastFrameIndex = v.lastFrameIndex ∧
    (negotiate dev v).resizeAfterOpen = v.resizeAfterOpen ∧
    (negotiate dev v).timingsError = v.timingsError ∧
    (negotiate dev v).fd = (dev v.trace.length Req.openDev).rc ∧
    (negotiate dev v).width = (dev (v.trace.length + 2) Req.gFmt).width ∧
    (negotiate dev v).height = (dev (v.trace.length + 2) Req.gFmt).height ∧
    (negotiate dev v).pixelformat = (dev (v.trace.length + 2) Req.gFmt).pixelformat := by
  simp [negotiate, Video.ioctl, Video.sayIf]

theorem resizeDirect_emits (dev : Device) (v : Video) : Emits Plain v (resizeDirect dev v) := by
  unfold resizeDirect
  split
  · exact Emits.refl _ _
  · split
    · exact Emits.refl _ _
    · exact allocate_emits dev _

/-! ### Sessions without a mapped buffer never restart -/

theorem resize_of_no_mapping (n : Nat) (dev : Device) (v : Video)
    (h : anyMapped v.buffers = false) : resize n dev v = some (resizeDirect dev v) := by
  unfold resize resizeDirect
  by_cases h1 : v.fd < 0
  · simp [h1]
  · by_cases h2 : v.resizeAfterOpen = true
    · simp [h1, h2]
    · simp [h1, h2, h]

theorem start_of_no_mapping (n : Nat) (dev : Device) (v : Video)
    (h : anyMapped v.buffers = false) : start n dev v = some (startDirect dev v) := by
  unfold start startWith startDirect
  by_cases h1 : v.fd ≥ 0
  · simp [h1]
  · have hb : anyMapped (negotiate dev v).buffers = false := by
      rw [(negotiate_frame dev v).1]; exact h
    simp [h1, resize_of_no_mapping n dev _ hb]

theorem stop_no_mapping (dev : Device) (v : Video) (h : 0 ≤ v.fd) :
    anyMapped (stop dev v).buffers = false := by
  have h1 : ¬ v.fd < 0 := by omega
  simp [stop, h1, Video.ioctl, Video.sayIf, unmap, anyMapped_unmapAll]

theorem restart_of_open (n : Nat) (dev : Device) (v : Video) (h : 0 ≤ v.fd) :
    restart n dev v = some (startDirect dev (stop dev v)) :=
  start_of_no_mapping n dev _ (stop_no_mapping dev v h)

/-! ### The paths of `resize` and `needsResize` -/

theorem resize_closed (n : Nat) (dev : Device) (v : Video) (h : v.fd < 0) :
    resize n dev v = some v := by
  unfold resize; simp [h]

theorem resize_latched (n : Nat) (dev : Device) (v : Video) (h : 0 ≤ v.fd)
    (hl : v.resizeAfterOpen = true) :
    resize n dev v = some { v with resizeAfterOpen := false } := by
  have h1 : ¬ v.fd < 0 := by omega
  unfold resize; simp [h1, hl]

theorem resize_retimed (n : Nat) (dev : Device) (v : Video) (h : 0 ≤ v.fd)
    (hl : v.resizeAfterOpen = false) (hm : anyMapped v.buffers = true)
    (hq : 0 ≤ (requery dev (halt dev v)).1.rc) :
    resize n dev v = some (allocate dev
      (applyTimings dev (requery dev (halt dev v)).1 (requery dev (halt dev v)).2)) := by
  have h1 : ¬ v.fd < 0 := by omega
  have h2 : ¬ (requery dev (halt dev v)).1.rc < 0 := by omega
  unfold resize; simp [h1, hl, hm, h2]

theorem resize_restart (n : Nat) (dev : Device) (v : Video) (h : 0 ≤ v.fd)
    (hl : v.resizeAfterOpen = false) (hm : anyMapped v.buffers = true)
    (hq : (requery dev (halt dev v)).1.rc < 0) :
    resize (n + 1) dev v =
      restart n dev ((requery dev (halt dev v)).2.say Msg.failedQueryTimingsRestart) := by
  have h1 : ¬ v.fd < 0 := by omega
  unfold resize; simp [h1, hl, hm, hq, restart, start]

theorem resize_out_of_fuel (dev : Device) (v : Video) (h : 0 ≤ v.fd)
    (hl : v.resizeAfterOpen = false) (hm : anyMapped v.buffers = true)
    (hq : (requery dev (halt dev v)).1.rc < 0) : resize 0 dev v = none := by
  have h1 : ¬ v.fd < 0 := by omega
  unfold resize; simp [h1, hl, hm, hq]

/-- The four ways through `resize`. -/
theorem resize_cases (dev : Device) (v : Video) :
    v.fd < 0 ∨ (0 ≤ v.fd ∧ v.resizeAfterOpen = true) ∨
    (0 ≤ v.fd ∧ v.resizeAfterOpen = false ∧ anyMapped v.buffers = false) ∨
    (0 ≤ v.fd ∧ v.resizeAfterOpen = false ∧ anyMapped v.buffers = true ∧
      0 ≤ (requery dev (halt dev v)).1.rc) ∨
    (0 ≤ v.fd ∧ v.resizeAfterOpen = false ∧ anyMapped v.buffers = true ∧
      (requery dev (halt dev v)).1.rc < 0) := by
  by_cases h1 : v.fd < 0
  · exact Or.inl h1
  · have h1 : 0 ≤ v.fd := by omega
    cases hl : v.resizeAfterOpen
    · cases hm : anyMapped v.buffers
      · exact Or.inr (Or.inr (Or.inl ⟨h1, rfl, rfl⟩))
      · by_cases hq : (requery dev (halt dev v)).1.rc < 0
        · exact Or.inr (Or.inr (Or.inr (Or.inr ⟨h1, rfl, rfl, hq⟩)))
        · exact Or.inr (Or.inr (Or.inr (Or.inl ⟨h1, rfl, rfl, by omega⟩)))
    · exact Or.inr (Or.inl ⟨h1, rfl⟩)

theorem resize_fuel (n : Nat) (dev : Device) (v : Video) :
    resize (n + 1) dev v = resize 1 dev v := by
  rcases resize_cases dev v with h | ⟨h, hl⟩ | ⟨h, hl, hm⟩ | ⟨h, hl, hm, hq⟩ | ⟨h, hl, hm, hq⟩
  · rw [resize_closed _ _ _ h, resize_closed _ _ _ h]
  · rw [resize_latched _ _ _ h hl, resize_latched _ _ _ h hl]
  · rw [resize_of_no_mapping _ _ _ hm, resize_of_no_mapping _ _ _ hm]
  · rw [resize_retimed _ _ _ h hl hm hq, resize_retimed _ _ _ h hl hm hq]
  · have hfd : 0 ≤ ((requery dev (halt dev v)).2.say Msg.failedQueryTimingsRestart).fd := h
    rw [resize_restart _ _ _ h hl hm hq, resize_restart _ _ _ h hl hm hq,
      restart_of_open n _ _ hfd, restart_of_open 0 _ _ hfd]

theorem resize_total (dev : Device) (v : Video) : ∃ v', resize 1 dev v = some v' := by
  rcases resize_cases dev v with h | ⟨h, hl⟩ | ⟨h, hl, hm⟩ | ⟨h, hl, hm, hq⟩ | ⟨h, hl, hm, hq⟩
  · exact ⟨_, resize_closed _ _ _ h⟩
  · exact ⟨_, resize_latched _ _ _ h hl⟩
  · exact ⟨_, resize_of_no_mapping _ _ _ hm⟩
  · exact ⟨_, resize_retimed _ _ _ h hl hm hq⟩
  · have hfd : 0 ≤ ((requery dev (halt dev v)).2.say Msg.failedQueryTimingsRestart).fd := h
    exact ⟨_, by rw [resize_restart _ _ _ h hl hm hq, restart_of_open 0 _ _ hfd]⟩

theorem needsResize_closed (n : Nat) (dev : Device) (v : Video) (h : v.fd < 0) :
    needsResize n dev v = some (false, v) := by
  unfold needsResize; simp [h]

theorem needsResize_latched (n : Nat) (dev : Device) (v : Video) (h : 0 ≤ v.fd)
    (hl : v.resizeAfterOpen = true) : needsResize n dev v = some (true, v) := by
  have h1 : ¬ v.fd < 0 := by omega
  unfold needsResize; simp [h1, hl]

theorem needsResize_failed (n : Nat) (dev : Device) (v : Video) (h : 0 ≤ v.fd)
    (hl : v.resizeAfterOpen = false) (hq : (dev v.trace.length Req.queryDvTimings).rc < 0) :
    needsResize (n + 1) dev v =
      (restart n dev (noteTimingsError (v.ioctl dev Req.queryDvTimings).2)).map
        (fun v2 => (false, v2)) := by
  have h1 : ¬ v.fd < 0 := by omega
  unfold needsResize; simp [h1, hl, hq, Video.ioctl]

theorem needsResize_out_of_fuel (dev : Device) (v : Video) (h : 0 ≤ v.fd)
    (hl : v.resizeAfterOpen = false) (hq : (dev v.trace.length Req.queryDvTimings).rc < 0) :
    needsResize 0 dev v = none := by
  have h1 : ¬ v.fd < 0 := by omega
  unfold needsResize; simp [h1, hl, hq, Video.ioctl]

theorem needsResize_same (n : Nat) (dev : Device) (v : Video) (h : 0 ≤ v.fd)
    (hl : v.resizeAfterOpen = false) (hq : 0 ≤ (dev v.trace.length Req.queryDvTimings).rc)
    (hw : (dev v.trace.length Req.queryDvTimings).width = v.width)
    (hh : (dev v.trace.length Req.queryDvTimings).height = v.height) :
    needsResize n dev v =
      some (false, { (v.ioctl dev Req.queryDvTimings).2 with timingsError := false }) := by
  have h1 : ¬ v.fd < 0 := by omega
  have h2 : ¬ (dev v.trace.length Req.queryDvTimings).rc < 0 := by omega
  unfold needsResize; simp [h1, hl, h2, hw, hh, Video.ioctl]

theorem needsResize_changed (n : Nat) (dev : Device) (v : Video) (h : 0 ≤ v.fd)
    (hl : v.resizeAfterOpen = false) (hq : 0 ≤ (dev v.trace.length Req.queryDvTimings).rc)
    (hd : (dev v.trace.length Req.queryDvTimings).width ≠ v.width ∨
      (dev v.trace.length Req.queryDvTimings).height ≠ v.height) :
    needsResize n dev v =
      some (true, adopt (dev v.trace.length Req.queryDvTimings)
        { (v.ioctl dev Req.queryDvTimings).2 with timingsError := false }) := by
  have h1 : ¬ v.fd < 0 := by omega
  have h2 : ¬ (dev v.trace.length Req.queryDvTimings).rc < 0 := by omega
  unfold needsResize
  simp only [h1, hl, h2, Video.ioctl, if_false, Bool.false_eq_true]
  rw [if_pos hd]

theorem noteTimingsError_fd (v : Video) : (noteTimingsError v).fd = v.fd := by
  unfold noteTimingsError; split <;> rfl

theorem needsResize_fuel (n : Nat) (dev : Device) (v : Video) :
    needsResize (n + 1) dev v = needsResize 1 dev v := by
  by_cases h1 : v.fd < 0
  · rw [needsResize_closed _ _ _ h1, needsResize_closed _ _ _ h1]
  · have h : 0 ≤ v.fd := by omega
    cases hl : v.resizeAfterOpen
    · by_cases hq : (dev v.trace.length Req.queryDvTimings).rc < 0
      · have hfd : 0 ≤ (noteTimingsError (v.ioctl dev Req.queryDvTimings).2).fd := by
          rw [noteTimingsError_fd]; exact h
        rw [needsResize_failed _ _ _ h hl hq, needsResize_failed _ _ _ h hl hq,
          restart_of_open n _ _ hfd, restart_of_open 0 _ _ hfd]
      · unfold needsResize; simp [h1, hl, hq, Video.ioctl]
    · rw [needsResize_latched _ _ _ h hl, needsResize_latched _ _ _ h hl]

theorem needsResize_total (dev : Device) (v : Video) : ∃ r, needsResize 1 dev v = some r := by
  by_cases h1 : v.fd < 0
  · exact ⟨_, needsResize_closed _ _ _ h1⟩
  · have h : 0 ≤ v.fd := by omega
    cases hl : v.resizeAfterOpen
    · by_cases hq : (dev v.trace.length Req.queryDvTimings).rc < 0
      · have hfd : 0 ≤ (noteTimingsError (v.ioctl dev Req.queryDvTimings).2).fd := by
          rw [noteTimingsError_fd]; exact h
        exact ⟨_, by rw [needsResize_failed _ _ _ h hl hq, restart_of_open 0 _ _ hfd]; rfl⟩
      · by_cases hd : (dev v.trace.length Req.queryDvTimings).width ≠ v.width ∨
            (dev v.trace.length Req.queryDvTimings).height ≠ v.height
        · exact ⟨_, needsResize_changed _ _ _ h hl (by omega) hd⟩
        · have hw : (dev v.trace.length Req.queryDvTimings).width = v.width := by
            by_contra hne; exact hd (Or.inl hne)
          have hh : (dev v.trace.length Req.queryDvTimings).height = v.height := by
            by_contra hne; exact hd (Or.inr hne)
          exact ⟨_, needsResize_same _ _ _ h hl (by omega) hw hh⟩
    · exact ⟨_, needsResize_latched _ _ _ h hl⟩

theorem startDirect_emits (dev : Device) (v : Video) : Emits Plain v (startDirect dev v) := by
  unfold startDirect
  split
  · exact Emits.refl _ _
  · exact ((negotiate_emits dev v).trans (resizeDirect_emits dev _)).retrace rfl


/-! ### The log -/

theorem count_ite_cons (c : Prop) [Decidable c] (m x : Msg) (l : List Msg) (h : x ≠ m) :
    List.count m (if c then x :: l else l) = List.count m l := by
  split
  · exact List.count_cons_of_ne h.symm l
  · rfl

theorem count_ite_cons_right (c : Prop) [Decidable c] (m x : Msg) (l : List Msg) (h : x ≠ m) :
    List.count m (if c then l else x :: l) = List.count m l := by
  split
  · rfl
  · exact List.count_cons_of_ne h.symm l

theorem stop_timingsLines (dev : Device) (v : Video) :
    timingsLines (stop dev v) = timingsLines v := by
  unfold stop timingsLines
  split
  · rfl
  · simp [Video.ioctl, Video.sayIf, unmap, count_ite_cons, count_ite_cons_right]

theorem mapOne_timingsLines (dev : Device) (i : Nat) (v : Video) :
    timingsLines (mapOne dev i v) = timingsLines v := by
  simp [timingsLines, mapOne, Video.ioctl, Video.sayIf, count_ite_cons, count_ite_cons_right]

theorem mapLoop_timingsLines (dev : Device) (i n : Nat) (v : Video) :
    timingsLines (mapLoop dev i n v) = timingsLines v := by
  induction n generalizing i v with
  | zero => rfl
  | succ n ih => exact (ih (i + 1) (mapOne dev i v)).trans (mapOne_timingsLines dev i v)

theorem allocate_timingsLines (dev : Device) (v : Video) :
    timingsLines (allocate dev v) = timingsLines v := by
  have h1 : timingsLines (requestBuffers dev v) = timingsLines v := by
    simp [timingsLines, requestBuffers, Video.ioctl, Video.sayIf, count_ite_cons, count_ite_cons_right]
  have h2 : ∀ w, timingsLines (streamOn dev w) = timingsLines w := by
    intro w
    simp [timingsLines, streamOn, Video.ioctl, Video.sayIf, count_ite_cons, count_ite_cons_right]
  unfold allocate
  rw [h2, mapLoop_timingsLines, h1]

theorem negotiate_timingsLines (dev : Device) (v : Video) :
    timingsLines (negotiate dev v) = timingsLines v := by
  simp [timingsLines, negotiate, Video.ioctl, Video.sayIf, count_ite_cons, count_ite_cons_right]

theorem resizeDirect_timingsLines (dev : Device) (v : Video) :
    timingsLines (resizeDirect dev v) = timingsLines v := by
  unfold resizeDirect
  split
  · rfl
  · split
    · rfl
    · exact allocate_timingsLines dev _

theorem startDirect_timingsLines (dev : Device) (v : Video) :
    timingsLines (startDirect dev v) = timingsLines v := by
  unfold startDirect
  split
  · rfl
  · exact (resizeDirect_timingsLines dev _).trans (negotiate_timingsLines dev v)

theorem noteTimingsError_trace (v : Video) : (noteTimingsError v).trace = v.trace := by
  unfold noteTimingsError; split <;> rfl

theorem noteTimingsError_flag (v : Video) : (noteTimingsError v).timingsError = true := by
  unfold noteTimingsError
  cases h : v.timingsError <;> simp [h]

theorem noteTimingsError_timingsLines (v : Video) :
    timingsLines (noteTimingsError v) = timingsLines v + (if v.timingsError then 0 else 1) := by
  unfold noteTimingsError timingsLines
  cases h : v.timingsError <;> simp [h, Video.say]

theorem stop_timingsError (dev : Device) (v : Video) :
    (stop dev v).timingsError = v.timingsError := by
  unfold stop; split <;> rfl

theorem mapLoop_timingsError (dev : Device) (i n : Nat) (v : Video) :
    (mapLoop dev i n v).timingsError = v.timingsError := by
  induction n generalizing i v with
  | zero => rfl
  | succ n ih => exact (ih (i + 1) (mapOne dev i v)).trans rfl

theorem allocate_timingsError (dev : Device) (v : Video) :
    (allocate dev v).timingsError = v.timingsError :=
  mapLoop_timingsError dev 0 _ _

theorem resizeDirect_timingsError (dev : Device) (v : Video) :
    (resizeDirect dev v).timingsError = v.timingsError := by
  unfold resizeDirect
  split
  · rfl
  · split
    · rfl
    · exact allocate_timingsError dev _

theorem startDirect_timingsError (dev : Device) (v : Video) :
    (startDirect dev v).timingsError = v.timingsError := by
  unfold startDirect
  split
  · rfl
  · show (resizeDirect dev (negotiate dev v)).timingsError = v.timingsError
    rw [resizeDirect_timingsError, (negotiate_frame dev v).2.2.2.1]

/-! ## The claims -/

/-- C10: `resize()` and `needsResize()` terminate on every session and every device, with
at most one nested `restart()`: they return with one `restart()` allowed, and allowing
more changes nothing.  The `restart()` they invoke on a failed timing query (on an open
session) runs `stop()`, which leaves no buffer mapped, then `start()`, whose `resize()`
returns with no further `restart()` allowed and makes no timing query. -/
theorem resize_needsResize_terminate (dev : Device) (v : Video) :
    (∃ v', resize 1 dev v = some v') ∧
    (∃ r, needsResize 1 dev v = some r) ∧
    (∀ n, resize (n + 1) dev v = resize 1 dev v ∧
      needsResize (n + 1) dev v = needsResize 1 dev v) ∧
    (0 ≤ v.fd → anyMapped (stop dev v).buffers = false ∧
      ∃ v', start 0 dev (stop dev v) = some v' ∧ restart 0 dev v = some v' ∧
        ∀ e ∈ newEvents v v', e.1 ≠ Req.queryDvTimings) := by
  refine ⟨resize_total dev v, needsResize_total dev v,
    fun n => ⟨resize_fuel n dev v, needsResize_fuel n dev v⟩, fun h => ?_⟩
  refine ⟨stop_no_mapping dev v h, _, restart_of_open 0 dev v h, restart_of_open 0 dev v h, ?_⟩
  intro e he
  exact (((stop_emits dev v).trans (startDirect_emits dev _)).forall_new e he).1

theorem resize_needsResize_terminate_witness :
    anyMapped (stop devNoSignal vOpen).buffers = false ∧
      ∃ v', start 0 devNoSignal (stop devNoSignal vOpen) = some v' ∧
        restart 0 devNoSignal vOpen = some v' ∧
        ∀ e ∈ newEvents vOpen v', e.1 ≠ Req.queryDvTimings :=
  (resize_needsResize_terminate devNoSignal vOpen).2.2.2 (by decide)

/-- C9: on an open session with the latch clear, a failed timing query makes
`needsResize()` run `restart()`, that is `stop()` then `start()`, and return false.  The
line "Failed to query timings" is logged exactly when the timing-error flag was clear on
entry, and the flag is set afterwards; so a second failing call right after logs no
further line, and the line is logged once over the two calls when the flag was clear
before the first.  A call whose query succeeds leaves the flag clear. -/
theorem needsResize_failed_query (n : Nat) (dev : Device) (v : Video) (h : 0 ≤ v.fd)
    (hl : v.resizeAfterOpen = false) (hq : (dev v.trace.length Req.queryDvTimings).rc < 0) :
    ∃ v1, needsResize (n + 1) dev v = some (false, v1) ∧
      start n dev (stop dev (noteTimingsError (v.ioctl dev Req.queryDvTimings).2)) = some v1 ∧
      restart n dev (noteTimingsError (v.ioctl dev Req.queryDvTimings).2) = some v1 ∧
      v1.timingsError = true ∧
      timingsLines v1 = timingsLines v + (if v.timingsError then 0 else 1) ∧
      (0 ≤ v1.fd → v1.resizeAfterOpen = false →
        (dev v1.trace.length Req.queryDvTimings).rc < 0 →
        ∃ v2, needsResize (n + 1) dev v1 = some (false, v2) ∧
          v2.timingsError = true ∧ timingsLines v2 = timingsLines v1 ∧
          (v.timingsError = false → timingsLines v2 = timingsLines v + 1)) ∧
      (∀ w r w', 0 ≤ w.fd → w.resizeAfterOpen = false →
        0 ≤ (dev w.trace.length Req.queryDvTimings).rc →
        needsResize (n + 1) dev w = some (r, w') → w'.timingsError = false) := by
  have key : ∀ w : Video, 0 ≤ w.fd → w.resizeAfterOpen = false →
      (dev w.trace.length Req.queryDvTimings).rc < 0 →
      ∃ w1, needsResize (n + 1) dev w = some (false, w1) ∧
        restart n dev (noteTimingsError (w.ioctl dev Req.queryDvTimings).2) = some w1 ∧
        w1.timingsError = true ∧
        timingsLines w1 = timingsLines w + (if w.timingsError then 0 else 1) := by
    intro w hw hwl hwq
    have hfd : 0 ≤ (noteTimingsError (w.ioctl dev Req.queryDvTimings).2).fd := by
      rw [noteTimingsError_fd]; exact hw
    refine ⟨_, ?_, restart_of_open n dev _ hfd, ?_, ?_⟩
    · rw [needsResize_failed _ _ _ hw hwl hwq, restart_of_open n dev _ hfd]; rfl
    · rw [startDirect_timingsError, stop_timingsError, noteTimingsError_flag]
    · rw [startDirect_timingsLines, stop_timingsLines, noteTimingsError_timingsLines]
      rfl
  obtain ⟨v1, e1, e2, e3, e4⟩ := key v h hl hq
  refine ⟨v1, e1, e2, e2, e3, e4, ?_, ?_⟩
  · intro h1 hl1 hq1
    obtain ⟨v2, f1, _, f3, f4⟩ := key v1 h1 hl1 hq1
    refine ⟨v2, f1, f3, ?_, ?_⟩
    · rw [f4, e3]; rfl
    · intro hc
      rw [f4, e3, e4, hc]; rfl
  · intro w r w' hw hwl hwq hr
    by_cases hd : (dev w.trace.length Req.queryDvTimings).width ≠ w.width ∨
        (dev w.trace.length Req.queryDvTimings).height ≠ w.height
    · rw [needsResize_changed _ _ _ hw hwl hwq hd] at hr
      injection hr with hr
      rw [← (Prod.mk.inj hr).2]; rfl
    · have hw1 : (dev w.trace.length Req.queryDvTimings).width = w.width := by
        by_contra hne; exact hd (Or.inl hne)
      have hh1 : (dev w.trace.length Req.queryDvTimings).height = w.height := by
        by_contra hne; exact hd (Or.inr hne)
      rw [needsResize_same _ _ _ hw hwl hwq hw1 hh1] at hr
      injection hr with hr
      rw [← (Prod.mk.inj hr).2]


theorem needsResize_failed_query_witness :
    (0 ≤ vOpen.fd ∧ vOpen.resizeAfterOpen = false ∧
      (devNoSignal vOpen.trace.length Req.queryDvTimings).rc < 0) ∧
    (∃ v1, needsResize 1 devNoSignal vOpen = some (false, v1) ∧ v1.timingsError = true ∧
      timingsLines v1 = timingsLines vOpen + (if vOpen.timingsError then 0 else 1)) ∧
    (poll 1 devNoSignal 2 vOpen).map (fun p => (p.1, timingsLines p.2))
      = some ([false, false], 1) :=
  ⟨by decide,
    (needsResize_failed_query 0 devNoSignal vOpen (by decide) (by decide) (by decide)).elim
      fun v1 h => ⟨v1, h.1, h.2.2.2.1, h.2.2.2.2.1⟩,
    by decide!⟩

/-- C6: on an open session, a call of `needsResize()` whose timing query succeeds and
reports the session's current width and height returns false, leaves the pool, the last
frame index, the resolution and the descriptor as they were, and leaves the timing-error
flag clear. -/
theorem needsResize_same_timings (n : Nat) (dev : Device) (v v' : Video) (r : Bool)
    (h : 0 ≤ v.fd) (hr : needsResize n dev v = some (r, v'))
    (hq : ∃ rep, (Req.queryDvTimings, rep) ∈ newEvents v v' ∧ 0 ≤ rep.rc ∧
      rep.width = v.width ∧ rep.height = v.height) :
    r = false ∧ v'.buffers = v.buffers ∧ v'.lastFrameIndex = v.lastFrameIndex ∧
      v'.width = v.width ∧ v'.height = v.height ∧ v'.fd = v.fd ∧
      v'.timingsError = false := by
  obtain ⟨rep, hmem, hrc, hw, hh⟩ := hq
  cases hl : v.resizeAfterOpen
  · by_cases hf : (dev v.trace.length Req.queryDvTimings).rc < 0
    · exfalso
      cases n with
      | zero => rw [needsResize_out_of_fuel _ _ h hl hf] at hr; cases hr
      | succ n =>
        have hfd : 0 ≤ (noteTimingsError (v.ioctl dev Req.queryDvTimings).2).fd := by
          rw [noteTimingsError_fd]; exact h
        rw [needsResize_failed _ _ _ h hl hf, restart_of_open n dev _ hfd] at hr
        injection hr with hr
        have hv' := (Prod.mk.inj hr).2
        obtain ⟨es, t, p⟩ := (stop_emits dev _).trans
          (startDirect_emits dev (stop dev (noteTimingsError (v.ioctl dev Req.queryDvTimings).2)))
        rw [hv', noteTimingsError_trace] at t
        have hnew : newEvents v v' =
            es ++ [(Req.queryDvTimings, dev v.trace.length Req.queryDvTimings)] :=
          newEvents_of_eq v v' _ (by rw [t]; simp [Video.ioctl])
        rw [hnew] at hmem
        rcases List.mem_append.mp hmem with hm | hm
        · exact (p _ hm).1 rfl
        · simp only [List.mem_singleton, Prod.mk.injEq, true_and] at hm
          rw [hm] at hrc; omega
    · have hq0 : 0 ≤ (dev v.trace.length Req.queryDvTimings).rc := by omega
      by_cases hd : (dev v.trace.length Req.queryDvTimings).width ≠ v.width ∨
          (dev v.trace.length Req.queryDvTimings).height ≠ v.height
      · exfalso
        rw [needsResize_changed _ _ _ h hl hq0 hd] at hr
        injection hr with hr
        have hv' := (Prod.mk.inj hr).2
        have hnew : newEvents v v' =
            [(Req.queryDvTimings, dev v.trace.length Req.queryDvTimings)] :=
          newEvents_of_eq v v' _ (by rw [← hv']; rfl)
        rw [hnew] at hmem
        simp only [List.mem_singleton, Prod.mk.injEq, true_and] at hmem
        rw [hmem] at hw hh
        rcases hd with hd | hd
        · exact hd hw
        · exact hd hh
      · have hw1 : (dev v.trace.length Req.queryDvTimings).width = v.width := by
          by_contra hne; exact hd (Or.inl hne)
        have hh1 : (dev v.trace.length Req.queryDvTimings).height = v.height := by
          by_contra hne; exact hd (Or.inr hne)
        rw [needsResize_same _ _ _ h hl hq0 hw1 hh1] at hr
        injection hr with hr
        have hr1 := (Prod.mk.inj hr).1
        have hv' := (Prod.mk.inj hr).2
        subst hv'
        exact ⟨hr1.symm, rfl, rfl, rfl, rfl, rfl, rfl⟩
  · exfalso
    rw [needsResize_latched _ _ _ h hl] at hr
    injection hr with hr
    have hv' := (Prod.mk.inj hr).2
    subst hv'
    simp [newEvents] at hmem

theorem needsResize_same_timings_witness :
    (0 ≤ vOpen.fd ∧
      needsResize 1 devSteady vOpen = some (false,
        { (vOpen.ioctl devSteady Req.queryDvTimings).2 with timingsError := false }) ∧
      ∃ rep, (Req.queryDvTimings, rep) ∈ newEvents vOpen
          { (vOpen.ioctl devSteady Req.queryDvTimings).2 with timingsError := false } ∧
        0 ≤ rep.rc ∧ rep.width = vOpen.width ∧ rep.height = vOpen.height) ∧
    (false = false ∧
      ({ (vOpen.ioctl devSteady Req.queryDvTimings).2 with timingsError := false } : Video).buffers
        = vOpen.buffers) :=
  have h1 : needsResize 1 devSteady vOpen = some (false,
        { (vOpen.ioctl devSteady Req.queryDvTimings).2 with timingsError := false }) := by
    decide!
  have h2 : ∃ rep, (Req.queryDvTimings, rep) ∈ newEvents vOpen
          { (vOpen.ioctl devSteady Req.queryDvTimings).2 with timingsError := false } ∧
        0 ≤ rep.rc ∧ rep.width = vOpen.width ∧ rep.height = vOpen.height :=
    ⟨devSteady 0 Req.queryDvTimings, by decide!, by decide!, by decide!, by decide!⟩
  ⟨⟨by decide, h1, h2⟩,
    let t := needsResize_same_timings 1 devSteady vOpen _ false (by decide) h1 h2
    ⟨t.1, t.2.1⟩⟩

/-- C8: the argument `4294967301` of `-f` is a `long` outside `[0, 60]`, and the frame rate
configured is `5`, not `30`; the argument `4294967297` of `-s` is outside `[0, 1]`, and
the subsampling configured is `1`, not `0`: the value is narrowed to `int` before the
range check. -/
theorem Args.narrowed_before_range_check :
    isLong 4294967301 ∧ ¬ (0 ≤ (4294967301 : Int) ∧ (4294967301 : Int) ≤ 60) ∧
      Args.frameRate 4294967301 = 5 ∧
    isLong 4294967297 ∧ ¬ (0 ≤ (4294967297 : Int) ∧ (4294967297 : Int) ≤ 1) ∧
      Args.subsampling 4294967297 = 1 := by
  decide

/-- Within the range of `int` the options are read as the usage text says. -/
theorem Args.in_int_range (v : Int) (h : -(2 ^ 31) ≤ v ∧ v < 2 ^ 31) :
    Args.frameRate v = (if 0 ≤ v ∧ v ≤ 60 then v else 30) ∧
    Args.subsampling v = (if 0 ≤ v ∧ v ≤ 1 then v else 0) := by
  have ht : toInt v = v := by unfold toInt; omega
  unfold Args.frameRate Args.subsampling
  simp only [ht]
  constructor <;> split <;> split <;> omega


/-! ### The pool after `allocate` -/

theorem setAt_setAt (bs : List Buffer) (i : Nat) (f g : Buffer → Buffer) :
    setAt (setAt bs i f) i g = setAt bs i (fun b => g (f b)) := by
  induction bs generalizing i with
  | nil => rfl
  | cons b bs ih => cases i <;> simp [setAt, ih]

theorem vecResize_length (bs : List Buffer) (n : Nat) : (vecResize bs n).length = n := by
  simp [vecResize]; omega

theorem mapOne_buffers (dev : Device) (i : Nat) (v : Video) :
    (mapOne dev i v).buffers = setAt v.buffers i (mappedAt dev v.trace.length i) := by
  simp only [mapOne, Video.ioctl, Video.sayIf, setAt_setAt, List.length_cons]
  rfl

theorem mapOne_trace_length (dev : Device) (i : Nat) (v : Video) :
    (mapOne dev i v).trace.length = v.trace.length + 3 := by
  simp [mapOne, Video.ioctl, Video.sayIf]

theorem mapLoop_length (dev : Device) (i n : Nat) (v : Video) :
    (mapLoop dev i n v).buffers.length = v.buffers.length := by
  induction n generalizing i v with
  | zero => rfl
  | succ n ih =>
    show (mapLoop dev (i + 1) n (mapOne dev i v)).buffers.length = _
    rw [ih, mapOne_buffers, setAt_length]

theorem mapLoop_getElem? (dev : Device) (i n : Nat) (v : Video) (j : Nat) :
    (mapLoop dev i n v).buffers[j]? =
      if i ≤ j ∧ j < i + n then
        (v.buffers[j]?).map (mappedAt dev (v.trace.length + 3 * (j - i)) j)
      else v.buffers[j]? := by
  induction n generalizing i v with
  | zero =>
    have : ¬ (i ≤ j ∧ j < i + 0) := by omega
    simp only [this, if_false]; rfl
  | succ n ih =>
    show (mapLoop dev (i + 1) n (mapOne dev i v)).buffers[j]? = _
    rw [ih, mapOne_buffers, setAt_getElem?, mapOne_trace_length]
    by_cases h1 : j = i
    · subst h1
      have c1 : ¬ (j + 1 ≤ j ∧ j < j + 1 + n) := by omega
      have c2 : j ≤ j ∧ j < j + (n + 1) := by omega
      rw [if_neg c1, if_pos c2, if_pos rfl, Nat.sub_self, Nat.mul_zero, Nat.add_zero]
    · by_cases h2 : i + 1 ≤ j ∧ j < i + 1 + n
      · have c2 : i ≤ j ∧ j < i + (n + 1) := by omega
        have e : v.trace.length + 3 + 3 * (j - (i + 1)) = v.trace.length + 3 * (j - i) := by
          omega
        rw [if_pos h2, if_pos c2, if_neg h1, e]
      · have c2 : ¬ (i ≤ j ∧ j < i + (n + 1)) := by omega
        rw [if_neg h2, if_neg c2, if_neg h1]

/-- The request number at which `allocate`, begun on `v`, maps buffer `j`. -/
theorem allocate_getElem? (dev : Device) (v : Video) (j : Nat) :
    (allocate dev v).buffers[j]? =
      ((vecResize v.buffers (dev v.trace.length (Req.reqbufs 3)).count)[j]?).map
        (mappedAt dev (v.trace.length + 1 + 3 * j) j) := by
  show (mapLoop dev 0 (requestBuffers dev v).buffers.length (requestBuffers dev v)).buffers[j]? = _
  rw [mapLoop_getElem?]
  have hb : (requestBuffers dev v).buffers =
      vecResize v.buffers (dev v.trace.length (Req.reqbufs 3)).count := rfl
  have ht : (requestBuffers dev v).trace.length = v.trace.length + 1 := rfl
  rw [hb, ht, vecResize_length]
  by_cases hj : j < (dev v.trace.length (Req.reqbufs 3)).count
  · have c : 0 ≤ j ∧ j < 0 + (dev v.trace.length (Req.reqbufs 3)).count := by omega
    rw [if_pos c, Nat.sub_zero]
  · have c : ¬ (0 ≤ j ∧ j < 0 + (dev v.trace.length (Req.reqbufs 3)).count) := by omega
    have hn : (vecResize v.buffers (dev v.trace.length (Req.reqbufs 3)).count)[j]? = none := by
      apply List.getElem?_eq_none
      rw [vecResize_length]; omega
    rw [if_neg c, hn]; rfl

theorem allocate_length (dev : Device) (v : Video) :
    (allocate dev v).buffers.length = (dev v.trace.length (Req.reqbufs 3)).count := by
  show (mapLoop dev 0 (requestBuffers dev v).buffers.length (requestBuffers dev v)).buffers.length
    = _
  rw [mapLoop_length]
  exact vecResize_length _ _

theorem allocate_mem (dev : Device) (v : Video) (b : Buffer) (hb : b ∈ (allocate dev v).buffers) :
    b.queued = true ∧ ∃ t l o, b.data = (dev t (Req.mmap l o)).addr := by
  obtain ⟨j, hj⟩ := List.mem_iff_getElem?.mp hb
  rw [allocate_getElem?] at hj
  cases hx : (vecResize v.buffers (dev v.trace.length (Req.reqbufs 3)).count)[j]? with
  | none => rw [hx] at hj; cases hj
  | some x =>
    rw [hx] at hj
    simp only [Option.map_some'] at hj
    injection hj with hj
    subst hj
    exact ⟨rfl, _, _, _, rfl⟩

/-- A `resize` that returns with no `restart()` allowed, on an open session with the latch
clear, ends in `allocate`. -/
theorem resize_ends_in_allocate (dev : Device) (v v' : Video) (h : 0 ≤ v.fd)
    (hl : v.resizeAfterOpen = false) (hr : resize 0 dev v = some v') :
    ∃ w, v' = allocate dev w ∧ Emits (fun _ => True) v w := by
  rcases resize_cases dev v with h1 | ⟨_, hl1⟩ | ⟨_, _, hm⟩ | ⟨_, _, hm, hq⟩ | ⟨_, _, hm, hq⟩
  · omega
  · rw [hl] at hl1; cases hl1
  · rw [resize_of_no_mapping _ _ _ hm] at hr
    injection hr with hr
    have h1 : ¬ v.fd < 0 := by omega
    simp only [resizeDirect, h1, hl, if_false, Bool.false_eq_true] at hr
    exact ⟨_, hr.symm, emits_of_eq [] rfl (by simp)⟩
  · rw [resize_retimed _ _ _ h hl hm hq] at hr
    injection hr with hr
    exact ⟨_, hr.symm, emits_of_eq [_, _, _, _] rfl (by simp)⟩
  · rw [resize_out_of_fuel _ _ h hl hm hq] at hr
    cases hr

theorem allocate_request_recorded (dev : Device) (w : Video) :
    ∃ es, (allocate dev w).trace =
      es ++ (Req.reqbufs 3, dev w.trace.length (Req.reqbufs 3)) :: w.trace := by
  obtain ⟨es, t, _⟩ := (mapLoop_emits dev 0 (requestBuffers dev w).buffers.length
    (requestBuffers dev w)).trans (streamOn_emits dev _)
  exact ⟨es, t⟩

/-- C3, amended: on an open session with the latch clear, after a `resize()` that returns
without invoking `restart()` the pool has as many entries as the device granted in reply
to the request for three buffers made by this call, and every entry is queued; every
entry's mapping is non-null provided `mmap` never returns the null address. -/
theorem resize_pool (dev : Device) (v v' : Video) (h : 0 ≤ v.fd)
    (hl : v.resizeAfterOpen = false) (hr : resize 0 dev v = some v')
    (hmap : ∀ t l o, (dev t (Req.mmap l o)).addr ≠ 0) :
    (∃ rep, (Req.reqbufs 3, rep) ∈ newEvents v v' ∧ v'.buffers.length = rep.count) ∧
      ∀ b ∈ v'.buffers, b.data ≠ 0 ∧ b.queued = true := by
  obtain ⟨w, hw, es1, t1, _⟩ := resize_ends_in_allocate dev v v' h hl hr
  subst hw
  constructor
  · refine ⟨dev w.trace.length (Req.reqbufs 3), ?_, allocate_length dev w⟩
    obtain ⟨es2, t2⟩ := allocate_request_recorded dev w
    have hnew : newEvents v (allocate dev w) =
        es2 ++ (Req.reqbufs 3, dev w.trace.length (Req.reqbufs 3)) :: es1 :=
      newEvents_of_eq _ _ _ (by rw [t2, t1]; simp)
    rw [hnew]
    simp
  · intro b hb
    obtain ⟨hq, t, l, o, hd⟩ := allocate_mem dev w b hb
    exact ⟨by rw [hd]; exact hmap t l o, hq⟩

theorem resize_pool_witness :
    (0 ≤ vOpen.fd ∧ vOpen.resizeAfterOpen = false ∧ resize 0 devSteady vOpen = some vSteady) ∧
    (∃ rep, (Req.reqbufs 3, rep) ∈ newEvents vOpen vSteady ∧
      vSteady.buffers.length = rep.count) ∧
    ∀ b ∈ vSteady.buffers, b.data ≠ 0 ∧ b.queued = true :=
  ⟨by decide!, resize_pool devSteady vOpen vSteady (by decide) (by decide) (by decide!)
    (fun _ _ o => by simp [devSteady])⟩

/-- C3, as stated, fails: `devOne` grants one buffer; `start()` on the constructed session
leaves it open with the latch clear, and `resize()` then returns without `restart()`
with a pool of one entry. -/
theorem resize_pool_of_one :
    start 0 devOne (Video.init 30 0) = some vOne ∧ 0 ≤ vOne.fd ∧
      vOne.resizeAfterOpen = false ∧ (resize 0 devOne vOne).isSome = true ∧
      (resize 0 devOne vOne).map (fun v' => v'.buffers.length) = some 1 := by
  decide!


/-! ### `start`, `stop`, `start` on a stateless device -/

theorem mapLoop_frame (dev : Device) (i n : Nat) (v : Video) :
    (mapLoop dev i n v).fd = v.fd ∧ (mapLoop dev i n v).width = v.width ∧
    (mapLoop dev i n v).height = v.height ∧
    (mapLoop dev i n v).pixelformat = v.pixelformat ∧
    (mapLoop dev i n v).resizeAfterOpen = v.resizeAfterOpen ∧
    (mapLoop dev i n v).lastFrameIndex = v.lastFrameIndex := by
  induction n generalizing i v with
  | zero => exact ⟨rfl, rfl, rfl, rfl, rfl, rfl⟩
  | succ n ih => exact ih (i + 1) (mapOne dev i v)

theorem allocate_frame (dev : Device) (v : Video) :
    (allocate dev v).fd = v.fd ∧ (allocate dev v).width = v.width ∧
    (allocate dev v).height = v.height ∧
    (allocate dev v).pixelformat = v.pixelformat ∧
    (allocate dev v).resizeAfterOpen = v.resizeAfterOpen ∧
    (allocate dev v).lastFrameIndex = v.lastFrameIndex :=
  mapLoop_frame dev 0 _ (requestBuffers dev v)

theorem allocate_mapped (dev : Device) (f : Req → Reply) (hf : ∀ t q, dev t q = f q)
    (v : Video) :
    (allocate dev v).buffers.map (fun b => b.data) =
      (List.range (f (Req.reqbufs 3)).count).map (fun j =>
        (f (Req.mmap (f (Req.querybuf j)).length (f (Req.querybuf j)).offset)).addr) ∧
    (allocate dev v).buffers.map (fun b => b.queued) =
      (List.range (f (Req.reqbufs 3)).count).map (fun _ => true) := by
  have hlen : ∀ j, (f (Req.reqbufs 3)).count ≤ j →
      (vecResize v.buffers (f (Req.reqbufs 3)).count)[j]? = none := by
    intro j hj
    apply List.getElem?_eq_none
    rw [vecResize_length]; exact hj
  have hsome : ∀ j, j < (f (Req.reqbufs 3)).count →
      ∃ x, (vecResize v.buffers (f (Req.reqbufs 3)).count)[j]? = some x := by
    intro j hj
    have : j < (vecResize v.buffers (f (Req.reqbufs 3)).count).length := by
      rw [vecResize_length]; exact hj
    exact ⟨_, List.getElem?_eq_getElem this⟩
  constructor
  · apply List.ext_getElem?
    intro j
    rw [List.getElem?_map, allocate_getElem?, hf, List.getElem?_map]
    by_cases hj : j < (f (Req.reqbufs 3)).count
    · obtain ⟨x, hx⟩ := hsome j hj
      rw [hx, List.getElem?_range hj]
      simp [mappedAt, hf]
    · rw [hlen j (by omega), List.getElem?_eq_none (by simp; omega)]
      rfl
  · apply List.ext_getElem?
    intro j
    rw [List.getElem?_map, allocate_getElem?, hf, List.getElem?_map]
    by_cases hj : j < (f (Req.reqbufs 3)).count
    · obtain ⟨x, hx⟩ := hsome j hj
      rw [hx, List.getElem?_range hj]
      simp [mappedAt]
    · rw [hlen j (by omega), List.getElem?_eq_none (by simp; omega)]
      rfl

theorem negotiate_fields (dev : Device) (f : Req → Reply) (hf : ∀ t q, dev t q = f q)
    (v : Video) :
    (negotiate dev v).fd = (f Req.openDev).rc ∧
    (negotiate dev v).width = (f Req.gFmt).width ∧
    (negotiate dev v).height = (f Req.gFmt).height ∧
    (negotiate dev v).pixelformat = (f Req.gFmt).pixelformat := by
  obtain ⟨_, _, _, _, h1, h2, h3, h4⟩ := negotiate_frame dev v
  rw [hf] at h1 h2 h3 h4
  exact ⟨h1, h2, h3, h4⟩

/-- The session `start()` makes of a closed one without mappings when the device opens. -/
theorem startDirect_opened (dev : Device) (f : Req → Reply) (hf : ∀ t q, dev t q = f q)
    (v : Video) (hfd : v.fd < 0) (ho : 0 ≤ (f Req.openDev).rc)
    (hl : v.resizeAfterOpen = false) :
    (startDirect dev v).operational =
      { isOpen := true, width := (f Req.gFmt).width, height := (f Req.gFmt).height,
        pixelformat := (f Req.gFmt).pixelformat,
        resizeAfterOpen :=
          if v.height ≠ (f Req.gFmt).height ∨ v.width ≠ (f Req.gFmt).width then true else false,
        poolSize := (f (Req.reqbufs 3)).count,
        mapped := (List.range (f (Req.reqbufs 3)).count).map (fun j =>
          (f (Req.mmap (f (Req.querybuf j)).length (f (Req.querybuf j)).offset)).addr),
        queued := (List.range (f (Req.reqbufs 3)).count).map (fun _ => true),
        lastFrameIndex := v.lastFrameIndex } := by
  have h1 : ¬ v.fd ≥ 0 := by omega
  obtain ⟨hnfd, hnw, hnh, hnp⟩ := negotiate_fields dev f hf v
  have h2 : ¬ (negotiate dev v).fd < 0 := by rw [hnfd]; omega
  obtain ⟨hnb, hnlfi, hnla, _⟩ := negotiate_frame dev v
  have hnl : ¬ (negotiate dev v).resizeAfterOpen = true := by
    rw [hnla, hl]; simp
  have hs : startDirect dev v = latch v.height v.width
      (allocate dev (unmap (negotiate dev v))) := by
    unfold startDirect resizeDirect
    rw [if_neg h1, if_neg h2, if_neg hnl]
  have hlfi : (unmap (negotiate dev v)).lastFrameIndex = v.lastFrameIndex := hnlfi
  have hul : (unmap (negotiate dev v)).resizeAfterOpen = false := hnla.trans hl
  have hufd : (unmap (negotiate dev v)).fd = (f Req.openDev).rc := hnfd
  have huw : (unmap (negotiate dev v)).width = (f Req.gFmt).width := hnw
  have huh : (unmap (negotiate dev v)).height = (f Req.gFmt).height := hnh
  have hup : (unmap (negotiate dev v)).pixelformat = (f Req.gFmt).pixelformat := hnp
  generalize unmap (negotiate dev v) = w at hs hlfi hul hufd huw huh hup
  obtain ⟨a1, a2, a3, a4, a5, a6⟩ := allocate_frame dev w
  obtain ⟨m1, m2⟩ := allocate_mapped dev f hf w
  have hlen := allocate_length dev w
  rw [hf] at hlen
  rw [hs]
  simp only [Video.operational, latch, a1, a2, a3, a4, a5, a6, m1, m2, hlen, hufd, huw, huh,
    hup, hul, hlfi, ho, decide_True]

/-- The session `start()` makes of a closed one when the device does not open. -/
theorem startDirect_failed (dev : Device) (f : Req → Reply) (hf : ∀ t q, dev t q = f q)
    (v : Video) (hfd : v.fd < 0) (ho : (f Req.openDev).rc < 0) :
    (startDirect dev v).fd < 0 ∧ (startDirect dev v).buffers = v.buffers ∧
    (startDirect dev v).operational =
      { isOpen := false, width := (f Req.gFmt).width, height := (f Req.gFmt).height,
        pixelformat := (f Req.gFmt).pixelformat,
        resizeAfterOpen :=
          if v.height ≠ (f Req.gFmt).height ∨ v.width ≠ (f Req.gFmt).width then true
          else v.resizeAfterOpen,
        poolSize := v.buffers.length,
        mapped := v.buffers.map (fun b => b.data),
        queued := v.buffers.map (fun b => b.queued),
        lastFrameIndex := v.lastFrameIndex } := by
  have h1 : ¬ v.fd ≥ 0 := by omega
  obtain ⟨hnfd, hnw, hnh, hnp⟩ := negotiate_fields dev f hf v
  have h2 : (negotiate dev v).fd < 0 := by rw [hnfd]; omega
  have hs : startDirect dev v = latch v.height v.width (negotiate dev v) := by
    unfold startDirect resizeDirect
    rw [if_neg h1, if_pos h2]
  have h3 : ¬ 0 ≤ (f Req.openDev).rc := by omega
  obtain ⟨hb, hlfi, hl, _⟩ := negotiate_frame dev v
  rw [hs]
  refine ⟨h2, hb, ?_⟩
  generalize negotiate dev v = w at hnfd hnw hnh hnp hb hlfi hl
  simp only [Video.operational, latch, hnfd, hnw, hnh, hnp, h3, decide_False, hb, hlfi, hl]


theorem stop_closed (dev : Device) (v : Video) (h : v.fd < 0) : stop dev v = v := by
  unfold stop; rw [if_pos h]

theorem stop_frame (dev : Device) (v : Video) (h : 0 ≤ v.fd) :
    (stop dev v).fd = -1 ∧ (stop dev v).lastFrameIndex = -1 ∧
    (stop dev v).resizeAfterOpen = v.resizeAfterOpen ∧ (stop dev v).width = v.width ∧
    (stop dev v).height = v.height ∧ (stop dev v).pixelformat = v.pixelformat := by
  have h1 : ¬ v.fd < 0 := by omega
  unfold stop
  rw [if_neg h1]
  exact ⟨rfl, rfl, rfl, rfl, rfl, rfl⟩

theorem resizeDirect_lastFrameIndex (dev : Device) (v : Video) :
    (resizeDirect dev v).lastFrameIndex = v.lastFrameIndex ∧
      (v.fd < 0 ∨ (resizeDirect dev v).fd = v.fd) := by
  unfold resizeDirect
  split
  · exact ⟨rfl, Or.inr rfl⟩
  · split
    · exact ⟨rfl, Or.inr rfl⟩
    · exact ⟨(allocate_frame dev (unmap v)).2.2.2.2.2, Or.inr (allocate_frame dev (unmap v)).1⟩

theorem startDirect_lastFrameIndex (dev : Device) (v : Video) :
    (startDirect dev v).lastFrameIndex = v.lastFrameIndex := by
  unfold startDirect
  split
  · rfl
  · show (resizeDirect dev (negotiate dev v)).lastFrameIndex = _
    rw [(resizeDirect_lastFrameIndex dev _).1, (negotiate_frame dev v).2.1]

/-- Where the first `start()` does not set the latch, tearing down and rebuilding works:
for a closed session with no frame and no mapped buffer, and a device that answers each
request the same way on every call, `start()`, `stop()`, `start()` leave the same
operational state as one `start()` when the device does not open, or when the latch is
clear and the format the device reports has the session's current width and height. -/
theorem start_stop_start_operational (n : Nat) (dev : Device) (v : Video) (hdev : dev.Stateless)
    (hfd : v.fd < 0) (hlfi : v.lastFrameIndex = -1) (hmap : anyMapped v.buffers = false)
    (hcase : (dev 0 Req.openDev).rc < 0 ∨
      (v.resizeAfterOpen = false ∧ (dev 0 Req.gFmt).width = v.width ∧
        (dev 0 Req.gFmt).height = v.height)) :
    ∃ a b, start n dev v = some a ∧ start n dev (stop dev a) = some b ∧
      b.operational = a.operational := by
  obtain ⟨f, hf⟩ : ∃ f : Req → Reply, ∀ t q, dev t q = f q := ⟨dev 0, fun t q => hdev t 0 q⟩
  rw [hf, hf] at hcase
  refine ⟨startDirect dev v, startDirect dev (stop dev (startDirect dev v)),
    start_of_no_mapping n dev v hmap, ?_, ?_⟩
  · by_cases ho : (f Req.openDev).rc < 0
    · obtain ⟨afd, ab, _⟩ := startDirect_failed dev f hf v hfd ho
      rw [stop_closed dev _ afd]
      exact start_of_no_mapping n dev _ (by rw [ab]; exact hmap)
    · have aop := startDirect_opened dev f hf v hfd (by omega)
        (by rcases hcase with h | h; exact absurd h ho; exact h.1)
      have hopen : 0 ≤ (startDirect dev v).fd := by
        have := congrArg Operational.isOpen aop
        simpa [Video.operational] using this
      exact start_of_no_mapping n dev _ (stop_no_mapping dev _ hopen)
  · by_cases ho : (f Req.openDev).rc < 0
    · obtain ⟨afd, ab, aop⟩ := startDirect_failed dev f hf v hfd ho
      rw [stop_closed dev _ afd]
      obtain ⟨_, _, bop⟩ := startDirect_failed dev f hf (startDirect dev v) afd ho
      rw [bop, aop]
      have hh : (startDirect dev v).height = (f Req.gFmt).height :=
        congrArg Operational.height aop
      have hw : (startDirect dev v).width = (f Req.gFmt).width :=
        congrArg Operational.width aop
      have hla : (startDirect dev v).resizeAfterOpen = _ :=
        congrArg Operational.resizeAfterOpen aop
      have hl2 : (startDirect dev v).lastFrameIndex = v.lastFrameIndex :=
        congrArg Operational.lastFrameIndex aop
      simp only [hh, hw, hla, hl2, ab, ne_eq, not_true_eq_false, or_self, if_false]
    · obtain ⟨hl, hw, hh⟩ : v.resizeAfterOpen = false ∧ (f Req.gFmt).width = v.width ∧
          (f Req.gFmt).height = v.height := by
        rcases hcase with h | h
        · exact absurd h ho
        · exact h
      have aop := startDirect_opened dev f hf v hfd (by omega) hl
      have hopen : 0 ≤ (startDirect dev v).fd := by
        have := congrArg Operational.isOpen aop
        simpa [Video.operational] using this
      have ah : (startDirect dev v).height = (f Req.gFmt).height :=
        congrArg Operational.height aop
      have aw : (startDirect dev v).width = (f Req.gFmt).width :=
        congrArg Operational.width aop
      have ala : (startDirect dev v).resizeAfterOpen = _ :=
        congrArg Operational.resizeAfterOpen aop
      simp only [hw, hh, ne_eq, not_true_eq_false, or_self, if_false] at ala
      obtain ⟨s1, s2, s3, s4, s5, _⟩ := stop_frame dev (startDirect dev v) hopen
      have bop := startDirect_opened dev f hf (stop dev (startDirect dev v))
        (by rw [s1]; decide) (by omega) (by rw [s3]; exact ala)
      rw [bop, aop]
      simp only [s2, s4, s5, ah, aw, hw, hh, hlfi, ne_eq, not_true_eq_false, or_self, if_false]

/-- The same, with the last frame: after one `start()` and after `start()`, `stop()`,
`start()` the operational states agree and `lastFrameIndex` is unset. -/
theorem start_stop_start_same (n : Nat) (dev : Device) (v : Video) (hdev : dev.Stateless)
    (hfd : v.fd < 0) (hlfi : v.lastFrameIndex = -1) (hmap : anyMapped v.buffers = false)
    (hcase : (dev 0 Req.openDev).rc < 0 ∨
      (v.resizeAfterOpen = false ∧ (dev 0 Req.gFmt).width = v.width ∧
        (dev 0 Req.gFmt).height = v.height)) :
    ∃ a b, start n dev v = some a ∧ start n dev (stop dev a) = some b ∧
      b.operational = a.operational ∧ a.lastFrameIndex = -1 ∧ b.lastFrameIndex = -1 := by
  obtain ⟨a, b, h1, h2, h3⟩ := start_stop_start_operational n dev v hdev hfd hlfi hmap hcase
  have ha : a.lastFrameIndex = -1 := by
    rw [start_of_no_mapping n dev v hmap] at h1
    injection h1 with h1
    rw [← h1, startDirect_lastFrameIndex]
    exact hlfi
  have hb : b.lastFrameIndex = a.lastFrameIndex := congrArg Operational.lastFrameIndex h3
  exact ⟨a, b, h1, h2, h3, ha, hb.trans ha⟩

theorem start_stop_start_same_witness :
    (devSvga.Stateless ∧ (Video.init 30 0).fd < 0 ∧ (Video.init 30 0).lastFrameIndex = -1 ∧
      anyMapped (Video.init 30 0).buffers = false ∧ (Video.init 30 0).resizeAfterOpen = false ∧
      (devSvga 0 Req.gFmt).width = (Video.init 30 0).width ∧
      (devSvga 0 Req.gFmt).height = (Video.init 30 0).height) ∧
    ∃ a b, start 0 devSvga (Video.init 30 0) = some a ∧
      start 0 devSvga (stop devSvga a) = some b ∧ b.operational = a.operational ∧
      a.lastFrameIndex = -1 ∧ b.lastFrameIndex = -1 :=
  ⟨⟨fun _ _ _ => rfl, by decide, by decide, by decide, by decide, by decide, by decide⟩,
    start_stop_start_same 0 devSvga (Video.init 30 0) (fun _ _ _ => rfl) (by decide)
      (by decide) (by decide) (Or.inr ⟨by decide, by decide, by decide⟩)⟩

/-- C1: the code does not rebuild the session.  `devSteady` answers each request the same
way on every call and reports 1024x768.  One `start()` on the constructed (800x600)
session ends with streaming switched on, the latch set and three buffers mapped and
queued.  `stop()` keeps the latch; the second `start()` opens the device and negotiates
the format, its `resize()` consumes the latch and returns, and nothing else is
requested: the session is open with the latch clear and three buffers that are neither
mapped nor queued.  Open state, width, height, pixel format, pool size and the unset
`lastFrameIndex` are the same after both; the latch, the mappings and the queued flags
are not. -/
theorem start_stop_start_half_open :
    devSteady.Stateless ∧ (Video.init 30 0).fd < 0 ∧
      start 0 devSteady (Video.init 30 0) = some vOnce ∧
      start 0 devSteady (stop devSteady vOnce) = some vTwice ∧
      vTwice.operational ≠ vOnce.operational ∧
      0 ≤ vOnce.fd ∧ 0 ≤ vTwice.fd ∧
      (stop devSteady vOnce).resizeAfterOpen = true ∧
      (newEvents (stop devSteady vOnce) vTwice).map (fun e => e.1) =
        [Req.sCtrl V4L2_JPEG_CHROMA_SUBSAMPLING_444, Req.sParm 30, Req.gFmt, Req.querycap,
          Req.openDev] ∧
      (vOnce.trace.map (fun e => e.1)).head? = some Req.streamOn ∧
      Req.reqbufs 3 ∈ (newEvents (Video.init 30 0) vOnce).map (fun e => e.1) ∧
      anyMapped vTwice.buffers = false ∧
      vOnce.resizeAfterOpen = true ∧ vTwice.resizeAfterOpen = false ∧
      vOnce.operational.mapped = [4096, 8192, 12288] ∧
      vOnce.operational.queued = [true, true, true] ∧
      vTwice.operational.mapped = [0, 0, 0] ∧
      vTwice.operational.queued = [false, false, false] ∧
      vTwice.operational.isOpen = vOnce.operational.isOpen ∧
      vTwice.width = vOnce.width ∧ vTwice.height = vOnce.height ∧
      vTwice.pixelformat = vOnce.pixelformat ∧
      vTwice.buffers.length = vOnce.buffers.length ∧
      vOnce.lastFrameIndex = -1 ∧ vTwice.lastFrameIndex = -1 :=
  ⟨fun _ _ _ => rfl, by decide!⟩

/-! ### `getFrame` -/

theorem dequeue_succ (fuel : Nat) (dev : Device) (v : Video) :
    dequeue (fuel + 1) dev v =
      if (dev v.trace.length Req.dqbuf).rc ≥ 0 then
        if (dev v.trace.length Req.dqbuf).index < v.buffers.length then
          if (dev v.trace.length Req.dqbuf).flags &&& V4L2_BUF_FLAG_ERROR = 0 then
            if (dev v.trace.length Req.dqbuf).index < 2 ^ 31 then
              some (keepFrame (dev v.trace.length Req.dqbuf) (v.ioctl dev Req.dqbuf).2)
            else none
          else dequeue fuel dev (dropFrame (dev v.trace.length Req.dqbuf) (v.ioctl dev Req.dqbuf).2)
        else none
      else some (v.ioctl dev Req.dqbuf).2 := rfl

/-- What the dequeue loop does to a session. -/
theorem dequeue_spec (fuel : Nat) (dev : Device) (v v' : Video)
    (h : dequeue fuel dev v = some v') :
    ∃ es, v'.trace = es ++ v.trace ∧ (∀ e ∈ es, e.1 = Req.dqbuf) ∧
      v'.buffers.length = v.buffers.length ∧ v'.fd = v.fd ∧
      (∀ (j : Nat) (b' : Buffer), v'.buffers[j]? = some b' → ∃ b, v.buffers[j]? = some b ∧
        (b'.queued = true → b.queued = true)) ∧
      ((∀ e ∈ es, ¬ Good e) → v'.lastFrameIndex = v.lastFrameIndex) ∧
      ((∃ e ∈ es, Good e) → ∃ (k : Nat) (b : Buffer), v'.lastFrameIndex = (k : Int) ∧
        v'.buffers[k]? = some b ∧ b.queued = false ∧
        ∃ e ∈ es, Good e ∧ e.2.index = k ∧ b.payload = e.2.bytesused) := by
  induction fuel generalizing v with
  | zero => cases h
  | succ fuel ih =>
    rw [dequeue_succ] at h
    by_cases hrc : (dev v.trace.length Req.dqbuf).rc ≥ 0
    · rw [if_pos hrc] at h
      by_cases hidx : (dev v.trace.length Req.dqbuf).index < v.buffers.length
      · rw [if_pos hidx] at h
        by_cases hfl : (dev v.trace.length Req.dqbuf).flags &&& V4L2_BUF_FLAG_ERROR = 0
        · rw [if_pos hfl] at h
          by_cases hint : (dev v.trace.length Req.dqbuf).index < 2 ^ 31
          swap
          · rw [if_neg hint] at h
            cases h
          rw [if_pos hint] at h
          injection h with h
          subst h
          have hgood : Good (Req.dqbuf, dev v.trace.length Req.dqbuf) := ⟨rfl, hrc, hfl⟩
          obtain ⟨x, hx⟩ : ∃ x, v.buffers[(dev v.trace.length Req.dqbuf).index]? = some x :=
            ⟨_, List.getElem?_eq_getElem hidx⟩
          refine ⟨[(Req.dqbuf, dev v.trace.length Req.dqbuf)], rfl, by simp, ?_, rfl, ?_, ?_, ?_⟩
          · simp [keepFrame, Video.ioctl]
          · intro j b' hb'
            simp only [keepFrame, Video.ioctl, setAt_setAt, setAt_getElem?] at hb'
            by_cases hj : j = (dev v.trace.length Req.dqbuf).index
            · rw [if_pos hj] at hb'
              subst hj
              rw [hx] at hb'
              simp only [Option.map_some', Option.some.injEq] at hb'
              subst hb'
              exact ⟨x, hx, fun hq => by cases hq⟩
            · rw [if_neg hj] at hb'
              exact ⟨b', hb', fun hq => hq⟩
          · intro hno
            exact absurd hgood (hno _ (by simp))
          · intro _
            refine ⟨(dev v.trace.length Req.dqbuf).index,
              { x with queued := false, payload := (dev v.trace.length Req.dqbuf).bytesused },
              rfl, ?_, rfl, _, by simp, hgood, rfl, rfl⟩
            simp only [keepFrame, Video.ioctl, setAt_setAt, setAt_getElem?, if_true, hx,
              Option.map_some']
        · rw [if_neg hfl] at h
          obtain ⟨es, t, p, hlen, hfd, hmono, hnone, hsome⟩ := ih _ h
          have hbad : ¬ Good (Req.dqbuf, dev v.trace.length Req.dqbuf) := fun g => hfl g.2.2
          refine ⟨es ++ [(Req.dqbuf, dev v.trace.length Req.dqbuf)], ?_, ?_, ?_, ?_, ?_, ?_, ?_⟩
          · rw [t]; simp [dropFrame, Video.ioctl]
          · intro e he
            rcases List.mem_append.mp he with he | he
            · exact p e he
            · simp only [List.mem_singleton] at he
              rw [he]
          · rw [hlen]; simp [dropFrame, Video.ioctl]
          · rw [hfd]; rfl
          · intro j b' hb'
            obtain ⟨b1, hb1, hq1⟩ := hmono j b' hb'
            simp only [dropFrame, Video.ioctl, setAt_setAt, setAt_getElem?] at hb1
            by_cases hj : j = (dev v.trace.length Req.dqbuf).index
            · rw [if_pos hj] at hb1
              cases hx : v.buffers[j]? with
              | none => rw [hx] at hb1; cases hb1
              | some x =>
                rw [hx] at hb1
                simp only [Option.map_some', Option.some.injEq] at hb1
                subst hb1
                exact ⟨x, rfl, fun hq => by cases hq1 hq⟩
            · rw [if_neg hj] at hb1
              exact ⟨b1, hb1, hq1⟩
          · intro hno
            rw [hnone (fun e he => hno e (List.mem_append.mpr (Or.inl he)))]
            rfl
          · intro hex
            obtain ⟨e, he, hg⟩ := hex
            have he' : e ∈ es := by
              rcases List.mem_append.mp he with he | he
              · exact he
              · simp only [List.mem_singleton] at he
                rw [he] at hg
                exact absurd hg hbad
            obtain ⟨k, b, h1, h2, h3, e2, he2, h4⟩ := hsome ⟨e, he', hg⟩
            exact ⟨k, b, h1, h2, h3, e2, List.mem_append.mpr (Or.inl he2), h4⟩
      · rw [if_neg hidx] at h
        cases h
    · rw [if_neg hrc] at h
      injection h with h
      subst h
      have hbad : ¬ Good (Req.dqbuf, dev v.trace.length Req.dqbuf) := fun g => hrc g.2.1
      refine ⟨[(Req.dqbuf, dev v.trace.length Req.dqbuf)], rfl, by simp, rfl, rfl, ?_, ?_, ?_⟩
      · intro j b' hb'
        exact ⟨b', hb', fun hq => hq⟩
      · intro _; rfl
      · intro hex
        obtain ⟨e, he, hg⟩ := hex
        simp only [List.mem_singleton] at he
        rw [he] at hg
        exact absurd hg hbad


theorem resubmit_failed (dev : Device) (i : Nat) (v : Video)
    (h : (dev v.trace.length (Req.qbuf i)).rc ≠ 0) :
    resubmit dev i v = (v.ioctl dev (Req.qbuf i)).2.say Msg.failedQueueBuffer := by
  unfold resubmit
  simp only [Video.ioctl]
  rw [if_pos h]

theorem resubmit_done (dev : Device) (i : Nat) (v : Video)
    (h : (dev v.trace.length (Req.qbuf i)).rc = 0) :
    resubmit dev i v = { (v.ioctl dev (Req.qbuf i)).2 with
      buffers := setAt v.buffers i (fun b => { b with queued := true }) } := by
  unfold resubmit
  simp only [Video.ioctl]
  rw [if_neg (by rw [h]; simp)]

/-- What one round of the re-queue loop does to a session. -/
theorem requeueOne_spec (dev : Device) (i : Nat) (v : Video) :
    (requeueOne dev i v).lastFrameIndex = v.lastFrameIndex ∧
    (requeueOne dev i v).buffers.length = v.buffers.length ∧
    (requeueOne dev i v).fd = v.fd ∧
    ∃ es, (requeueOne dev i v).trace = es ++ v.trace ∧
      (∀ e ∈ es, e.1 = Req.qbuf i) ∧
      (∀ j : Nat, j ≠ i → (requeueOne dev i v).buffers[j]? = v.buffers[j]?) ∧
      ((i : Int) = v.lastFrameIndex → (requeueOne dev i v).buffers = v.buffers) ∧
      ((i : Int) ≠ v.lastFrameIndex → ∀ b : Buffer, (requeueOne dev i v).buffers[i]? = some b →
        b.queued = true ∨ ∃ rep, (Req.qbuf i, rep) ∈ es ∧ rep.rc ≠ 0) := by
  unfold requeueOne
  by_cases hl : (i : Int) = v.lastFrameIndex
  · rw [if_pos hl]
    exact ⟨rfl, rfl, rfl, [], rfl, by simp, fun _ _ => rfl, fun _ => rfl, fun h => absurd hl h⟩
  · rw [if_neg hl]
    cases hb : v.buffers[i]? with
    | none =>
      exact ⟨rfl, rfl, rfl, [], rfl, by simp, fun _ _ => rfl, fun _ => rfl,
        fun _ b h => by rw [hb] at h; cases h⟩
    | some x =>
      simp only []
      by_cases hq : x.queued = true
      · rw [if_pos hq]
        refine ⟨rfl, rfl, rfl, [], rfl, by simp, fun _ _ => rfl, fun _ => rfl, ?_⟩
        intro _ b h
        rw [hb] at h
        injection h with h
        subst h
        exact Or.inl hq
      · rw [if_neg hq]
        by_cases hrc : (dev v.trace.length (Req.qbuf i)).rc ≠ 0
        · rw [resubmit_failed dev i v hrc]
          refine ⟨rfl, rfl, rfl, [(Req.qbuf i, dev v.trace.length (Req.qbuf i))], rfl, by simp,
            fun _ _ => rfl, fun _ => rfl, ?_⟩
          intro _ b _
          exact Or.inr ⟨_, by simp, hrc⟩
        · rw [resubmit_done dev i v (by simpa using hrc)]
          refine ⟨rfl, setAt_length _ _ _, rfl,
            [(Req.qbuf i, dev v.trace.length (Req.qbuf i))], rfl, by simp, ?_,
            fun h => absurd h hl, ?_⟩
          · intro j hj
            show (setAt v.buffers i _)[j]? = _
            rw [setAt_getElem?, if_neg hj]
          · intro _ b h
            have h' : (setAt v.buffers i (fun b => { b with queued := true }))[i]? = some b := h
            rw [setAt_getElem?, if_pos rfl, hb] at h'
            simp only [Option.map_some', Option.some.injEq] at h'
            subst h'
            exact Or.inl rfl

/-- What the re-queue loop, from `i` for `n` rounds, does to a session. -/
theorem requeue_spec (dev : Device) (i n : Nat) (v : Video) :
    (requeue dev i n v).lastFrameIndex = v.lastFrameIndex ∧
    (requeue dev i n v).buffers.length = v.buffers.length ∧
    (requeue dev i n v).fd = v.fd ∧
    ∃ es, (requeue dev i n v).trace = es ++ v.trace ∧
      (∀ e ∈ es, ∃ j, e.1 = Req.qbuf j) ∧
      (∀ j : Nat, ¬ (i ≤ j ∧ j < i + n) → (requeue dev i n v).buffers[j]? = v.buffers[j]?) ∧
      (∀ j : Nat, (j : Int) = v.lastFrameIndex →
        (requeue dev i n v).buffers[j]? = v.buffers[j]?) ∧
      (∀ (j : Nat) (b : Buffer), i ≤ j → j < i + n → (j : Int) ≠ v.lastFrameIndex →
        (requeue dev i n v).buffers[j]? = some b →
        b.queued = true ∨ ∃ rep, (Req.qbuf j, rep) ∈ es ∧ rep.rc ≠ 0) := by
  induction n generalizing i v with
  | zero =>
    exact ⟨rfl, rfl, rfl, [], rfl, by simp, fun _ _ => rfl, fun _ _ => rfl,
      fun j b h1 h2 => by omega⟩
  | succ n ih =>
    show (requeue dev (i + 1) n (requeueOne dev i v)).lastFrameIndex = _ ∧
      (requeue dev (i + 1) n (requeueOne dev i v)).buffers.length = _ ∧
      (requeue dev (i + 1) n (requeueOne dev i v)).fd = _ ∧
      ∃ es, (requeue dev (i + 1) n (requeueOne dev i v)).trace = es ++ v.trace ∧
        (∀ e ∈ es, ∃ j, e.1 = Req.qbuf j) ∧
        (∀ j : Nat, ¬ (i ≤ j ∧ j < i + (n + 1)) →
          (requeue dev (i + 1) n (requeueOne dev i v)).buffers[j]? = v.buffers[j]?) ∧
        (∀ j : Nat, (j : Int) = v.lastFrameIndex →
          (requeue dev (i + 1) n (requeueOne dev i v)).buffers[j]? = v.buffers[j]?) ∧
        (∀ (j : Nat) (b : Buffer), i ≤ j → j < i + (n + 1) → (j : Int) ≠ v.lastFrameIndex →
          (requeue dev (i + 1) n (requeueOne dev i v)).buffers[j]? = some b →
          b.queued = true ∨ ∃ rep, (Req.qbuf j, rep) ∈ es ∧ rep.rc ≠ 0)
    obtain ⟨a1, a2, a3, es1, t1, p1, o1, l1, q1⟩ := requeueOne_spec dev i v
    obtain ⟨b1, b2, b3, es2, t2, p2, o2, l2, q2⟩ := ih (i + 1) (requeueOne dev i v)
    refine ⟨b1.trans a1, b2.trans a2, b3.trans a3, es2 ++ es1, ?_, ?_, ?_, ?_, ?_⟩
    · rw [t2, t1]; simp
    · intro e he
      rcases List.mem_append.mp he with he | he
      · exact p2 e he
      · exact ⟨i, p1 e he⟩
    · intro j hj
      rw [o2 j (by omega), o1 j (by omega)]
    · intro j hj
      rw [l2 j (by rw [a1]; exact hj)]
      by_cases hji : j = i
      · subst hji
        rw [l1 hj]
      · exact o1 j hji
    · intro j b h1 h2 h3 hb
      by_cases hji : j = i
      · subst hji
        rw [o2 j (by omega)] at hb
        rcases q1 h3 b hb with h | ⟨rep, hm, hr⟩
        · exact Or.inl h
        · exact Or.inr ⟨rep, List.mem_append.mpr (Or.inr hm), hr⟩
      · rcases q2 j b (by omega) (by omega) (by rw [a1]; exact h3) hb with h | ⟨rep, hm, hr⟩
        · exact Or.inl h
        · exact Or.inr ⟨rep, List.mem_append.mpr (Or.inl hm), hr⟩


/-- What `getFrame` does to an open session: a wait, the dequeue loop (leaving `vd`), the
re-queue loop over the whole pool. -/
theorem getFrame_spec (fuel : Nat) (dev : Device) (v v' : Video) (h : 0 ≤ v.fd)
    (hr : getFrame fuel dev v = some v') :
    ∃ vd es, v' = requeue dev 0 vd.buffers.length vd ∧
      vd.trace = es ++ (Req.select, dev v.trace.length Req.select) :: v.trace ∧
      (∀ e ∈ es, e.1 = Req.dqbuf) ∧
      vd.buffers.length = v.buffers.length ∧ vd.fd = v.fd ∧
      (∀ (j : Nat) (b' : Buffer), vd.buffers[j]? = some b' → ∃ b, v.buffers[j]? = some b ∧
        (b'.queued = true → b.queued = true)) ∧
      ((∀ e ∈ es, ¬ Good e) → vd.lastFrameIndex = v.lastFrameIndex) ∧
      ((∃ e ∈ es, Good e) → ∃ (k : Nat) (b : Buffer), vd.lastFrameIndex = (k : Int) ∧
        vd.buffers[k]? = some b ∧ b.queued = false ∧
        ∃ e ∈ es, Good e ∧ e.2.index = k ∧ b.payload = e.2.bytesused) := by
  have h1 : ¬ v.fd < 0 := by omega
  unfold getFrame at hr
  rw [if_neg h1] at hr
  simp only [] at hr
  by_cases hs : (dev v.trace.length Req.select).rc > 0
  · have hs' : (v.ioctl dev Req.select).1.rc > 0 := hs
    rw [if_pos hs'] at hr
    cases hd : dequeue fuel dev (v.ioctl dev Req.select).2 with
    | none => rw [hd] at hr; cases hr
    | some vd =>
      rw [hd] at hr
      injection hr with hr
      obtain ⟨es, t, p, c1, c2, c3, c4, c5⟩ := dequeue_spec fuel dev _ vd hd
      exact ⟨vd, es, hr.symm, t, p, c1, c2, c3, c4, c5⟩
  · have hs' : ¬ (v.ioctl dev Req.select).1.rc > 0 := hs
    rw [if_neg hs'] at hr
    injection hr with hr
    refine ⟨(v.ioctl dev Req.select).2, [], hr.symm, rfl, by simp, rfl, rfl, ?_, fun _ => rfl, ?_⟩
    · intro j b' hb'
      exact ⟨b', hb', fun hq => hq⟩
    · intro hex
      obtain ⟨e, he, _⟩ := hex
      cases he

/-- After a `getFrame` that dequeued a buffer not flagged as errored: the last frame is a
pool buffer that is not queued and carries the byte count reported for it; every other
buffer is queued, or the request to queue it failed in this call. -/
theorem getFrame_frame (fuel : Nat) (dev : Device) (v v' : Video) (h : 0 ≤ v.fd)
    (hr : getFrame fuel dev v = some v') (hgood : ∃ e ∈ newEvents v v', Good e) :
    ∃ (k : Nat) (b : Buffer), v'.lastFrameIndex = (k : Int) ∧ v'.buffers[k]? = some b ∧
      b.queued = false ∧
      (∃ e ∈ newEvents v v', Good e ∧ e.2.index = k ∧ b.payload = e.2.bytesused) ∧
      (∀ (i : Nat) (x : Buffer), i ≠ k → v'.buffers[i]? = some x →
        x.queued = true ∨ ∃ rep, (Req.qbuf i, rep) ∈ newEvents v v' ∧ rep.rc ≠ 0) := by
  obtain ⟨vd, es, hv', t, p, _, _, _, _, hsome⟩ := getFrame_spec fuel dev v v' h hr
  obtain ⟨r1, r2, _, esr, tr, pr, _, rl, rq⟩ := requeue_spec dev 0 vd.buffers.length vd
  rw [← hv'] at r1 r2 tr rl rq
  have hnew : newEvents v v' =
      esr ++ (es ++ [(Req.select, dev v.trace.length Req.select)]) :=
    newEvents_of_eq v v' _ (by rw [tr, t]; simp)
  have hin : ∃ e ∈ es, Good e := by
    obtain ⟨e, he, hg⟩ := hgood
    rw [hnew] at he
    rcases List.mem_append.mp he with he | he
    · obtain ⟨j, hj⟩ := pr e he
      rw [hg.1] at hj; cases hj
    · rcases List.mem_append.mp he with he | he
      · exact ⟨e, he, hg⟩
      · simp only [List.mem_singleton] at he
        rw [he] at hg
        cases hg.1
  obtain ⟨k, b, hk, hb, hq, e, he, hg, hidx, hpay⟩ := hsome hin
  refine ⟨k, b, r1.trans hk, ?_, hq, ⟨e, ?_, hg, hidx, hpay⟩, ?_⟩
  · rw [rl k hk.symm]; exact hb
  · rw [hnew]
    exact List.mem_append.mpr (Or.inr (List.mem_append.mpr (Or.inl he)))
  · intro i x hik hx
    have hlt : i < vd.buffers.length := by
      have := (List.getElem?_eq_some_iff.mp hx).1
      omega
    have hne : (i : Int) ≠ vd.lastFrameIndex := by
      rw [hk]; omega
    rcases rq i x (Nat.zero_le _) (by omega) hne hx with hx1 | ⟨rep, hm, hrc⟩
    · exact Or.inl hx1
    · refine Or.inr ⟨rep, ?_, hrc⟩
      rw [hnew]
      exact List.mem_append.mpr (Or.inl hm)

/-- C2, amended: on an open session, when `getFrame()` returns after dequeuing a buffer not
flagged as errored, the buffer at `lastFrameIndex` is a pool buffer with queued = false,
and every other buffer of the pool has queued = true unless the request `getFrame()`
made in this call to queue it again failed. -/
theorem getFrame_queued (fuel : Nat) (dev : Device) (v v' : Video) (h : 0 ≤ v.fd)
    (hr : getFrame fuel dev v = some v') (hgood : ∃ e ∈ newEvents v v', Good e) :
    ∃ k : Nat, v'.lastFrameIndex = (k : Int) ∧ k < v'.buffers.length ∧
      (∀ b : Buffer, v'.buffers[k]? = some b → b.queued = false) ∧
      (∀ (i : Nat) (x : Buffer), i ≠ k → v'.buffers[i]? = some x →
        x.queued = true ∨ ∃ rep, (Req.qbuf i, rep) ∈ newEvents v v' ∧ rep.rc ≠ 0) := by
  obtain ⟨k, b, hk, hb, hq, _, hrest⟩ := getFrame_frame fuel dev v v' h hr hgood
  refine ⟨k, hk, (List.getElem?_eq_some_iff.mp hb).1, ?_, hrest⟩
  intro b' hb'
  rw [hb] at hb'
  injection hb' with hb'
  rw [← hb']; exact hq

theorem getFrame_queued_witness :
    (0 ≤ vReady.fd ∧ getFrame 1 devReady vReady = some vReadyFrame ∧
      ∃ e ∈ newEvents vReady vReadyFrame, Good e) ∧
    ∃ k : Nat, vReadyFrame.lastFrameIndex = (k : Int) ∧ k < vReadyFrame.buffers.length ∧
      (∀ b : Buffer, vReadyFrame.buffers[k]? = some b → b.queued = false) ∧
      (∀ (i : Nat) (x : Buffer), i ≠ k → vReadyFrame.buffers[i]? = some x →
        x.queued = true ∨
          ∃ rep, (Req.qbuf i, rep) ∈ newEvents vReady vReadyFrame ∧ rep.rc ≠ 0) :=
  ⟨by decide!, getFrame_queued 1 devReady vReady vReadyFrame (by decide!) (by decide!)
    (by decide!)⟩

/-- C2, as stated, fails: on `devBusy`, `getFrame()` on the session `start()` left dequeues
buffer 0 flagged as errored, then buffer 1 not flagged, and its request to queue buffer 0
again fails; it returns with `lastFrameIndex` 1 and both buffer 0 and buffer 1 not
queued. -/
theorem getFrame_two_not_queued :
    start 0 devBusy (Video.init 30 0) = some vBusy ∧ 0 ≤ vBusy.fd ∧
      getFrame 2 devBusy vBusy = some vBusyFrame ∧
      (∃ e ∈ newEvents vBusy vBusyFrame, Good e) ∧
      vBusyFrame.lastFrameIndex = 1 ∧
      vBusyFrame.buffers.map (fun b => b.queued) = [false, false, true] := by
  decide!


/-! ### What the operations other than `getFrame` do to the last frame -/

theorem plain_noDq (e : Req × Reply) (h : Plain e) : NoDq e := h.2

theorem Calm.mild {v v' : Video} (h : Calm v v') : Mild v v' := by
  obtain ⟨e, h1 | ⟨h2, h3, _⟩ | h4⟩ := h
  · exact ⟨e, Or.inl h1⟩
  · exact ⟨e, Or.inr (Or.inl ⟨h2, h3⟩)⟩
  · exact ⟨e, Or.inr (Or.inr h4)⟩

theorem calm_self (v : Video) : Calm v v :=
  ⟨Emits.refl _ _, Or.inr (Or.inl ⟨rfl, rfl, rfl⟩)⟩

theorem stop_calm (dev : Device) (v : Video) : Calm v (stop dev v) := by
  refine ⟨(stop_emits dev v).mono plain_noDq, ?_⟩
  by_cases h : v.fd < 0
  · rw [stop_closed dev v h]
    exact Or.inr (Or.inl ⟨rfl, rfl, rfl⟩)
  · exact Or.inl (stop_frame dev v (by omega)).2.1

/-- A `restart()` of an open session drops the last frame. -/
theorem restart_open_calm (n : Nat) (dev : Device) (v v' : Video) (h : 0 ≤ v.fd)
    (hr : restart n dev v = some v') :
    Emits Plain v v' ∧ v'.lastFrameIndex = -1 := by
  rw [restart_of_open n dev v h] at hr
  injection hr with hr
  subst hr
  exact ⟨(stop_emits dev v).trans (startDirect_emits dev _),
    (startDirect_lastFrameIndex dev _).trans (stop_frame dev v h).2.1⟩

theorem requery_emits (dev : Device) (v : Video) :
    Emits NoDq v ((requery dev (halt dev v)).2.say Msg.failedQueryTimingsRestart) :=
  emits_of_eq [_, _, _] rfl (by simp [NoDq])

theorem applyTimings_emits (dev : Device) (v : Video) :
    Emits NoDq v (applyTimings dev (requery dev (halt dev v)).1 (requery dev (halt dev v)).2) :=
  emits_of_eq [_, _, _, _] rfl (by simp [NoDq])

theorem retimed_emits (dev : Device) (v : Video) :
    Emits NoDq v (allocate dev
      (applyTimings dev (requery dev (halt dev v)).1 (requery dev (halt dev v)).2)) :=
  (applyTimings_emits dev v).trans ((allocate_emits dev _).mono plain_noDq)

theorem applyTimings_frame (dev : Device) (r : Reply) (v : Video) :
    (applyTimings dev r (requery dev (halt dev v)).2).lastFrameIndex = v.lastFrameIndex ∧
    (applyTimings dev r (requery dev (halt dev v)).2).fd = v.fd := by
  simp [applyTimings, requery, halt, unmap, Video.ioctl, Video.sayIf]

theorem retimed_frame (dev : Device) (v : Video) :
    (allocate dev (applyTimings dev (requery dev (halt dev v)).1
      (requery dev (halt dev v)).2)).lastFrameIndex = v.lastFrameIndex ∧
    (allocate dev (applyTimings dev (requery dev (halt dev v)).1
      (requery dev (halt dev v)).2)).fd = v.fd := by
  obtain ⟨a1, _, _, _, _, a6⟩ := allocate_frame dev
    (applyTimings dev (requery dev (halt dev v)).1 (requery dev (halt dev v)).2)
  obtain ⟨e6, e1⟩ := applyTimings_frame dev (requery dev (halt dev v)).1 v
  exact ⟨a6.trans e6, a1.trans e1⟩

theorem resize_mild (n : Nat) (dev : Device) (v v' : Video) (hr : resize n dev v = some v') :
    Mild v v' ∧ ((v.lastFrameIndex = -1 ∨ v.resizeAfterOpen = true) → Calm v v') := by
  rcases resize_cases dev v with h | ⟨h, hl⟩ | ⟨h, hl, hm⟩ | ⟨h, hl, hm, hq⟩ | ⟨h, hl, hm, hq⟩
  · rw [resize_closed _ _ _ h] at hr
    injection hr with hr
    subst hr
    exact ⟨(calm_self v).mild, fun _ => calm_self v⟩
  · rw [resize_latched _ _ _ h hl] at hr
    injection hr with hr
    subst hr
    have hc : Calm v { v with resizeAfterOpen := false } :=
      ⟨Emits.refl _ _, Or.inr (Or.inl ⟨rfl, rfl, rfl⟩)⟩
    exact ⟨hc.mild, fun _ => hc⟩
  · rw [resize_of_no_mapping _ _ _ hm] at hr
    injection hr with hr
    subst hr
    have he : Emits NoDq v (resizeDirect dev v) := (resizeDirect_emits dev v).mono plain_noDq
    obtain ⟨hlfi, hfd⟩ := resizeDirect_lastFrameIndex dev v
    have hfd' : (resizeDirect dev v).fd = v.fd := by
      rcases hfd with hfd | hfd
      · omega
      · exact hfd
    refine ⟨⟨he, Or.inr (Or.inl ⟨hlfi, hfd'⟩)⟩, fun hg => ⟨he, ?_⟩⟩
    rcases hg with hg | hg
    · exact Or.inl (hlfi.trans hg)
    · rw [hl] at hg; cases hg
  · rw [resize_retimed _ _ _ h hl hm hq] at hr
    injection hr with hr
    subst hr
    have he := retimed_emits dev v
    obtain ⟨hlfi, hfd⟩ := retimed_frame dev v
    refine ⟨⟨he, Or.inr (Or.inl ⟨hlfi, hfd⟩)⟩, fun hg => ⟨he, ?_⟩⟩
    rcases hg with hg | hg
    · exact Or.inl (hlfi.trans hg)
    · rw [hl] at hg; cases hg
  · cases n with
    | zero => rw [resize_out_of_fuel _ _ h hl hm hq] at hr; cases hr
    | succ n =>
      rw [resize_restart _ _ _ h hl hm hq] at hr
      have hfd : 0 ≤ ((requery dev (halt dev v)).2.say Msg.failedQueryTimingsRestart).fd := h
      obtain ⟨he, hlfi⟩ := restart_open_calm n dev _ v' hfd hr
      have he' : Emits NoDq v v' := (requery_emits dev v).trans (he.mono plain_noDq)
      exact ⟨⟨he', Or.inl hlfi⟩, fun _ => ⟨he', Or.inl hlfi⟩⟩

theorem start_calm (n : Nat) (dev : Device) (v v' : Video) (hr : start n dev v = some v') :
    Calm v v' := by
  unfold start startWith at hr
  by_cases h : v.fd ≥ 0
  · rw [if_pos h] at hr
    injection hr with hr
    subst hr
    exact calm_self v
  · rw [if_neg h] at hr
    cases hz : resize n dev (negotiate dev v) with
    | none => rw [hz] at hr; cases hr
    | some w =>
      rw [hz] at hr
      injection hr with hr
      subst hr
      obtain ⟨⟨he, hcase⟩, _⟩ := resize_mild n dev _ w hz
      have hn := (negotiate_frame dev v).2.1
      refine ⟨(((negotiate_emits dev v).mono plain_noDq).trans he).retrace rfl, ?_⟩
      rcases hcase with h1 | ⟨h1, _⟩ | ⟨_, h1⟩
      · exact Or.inl h1
      · exact Or.inr (Or.inr ⟨by omega, h1.trans hn⟩)
      · exact Or.inr (Or.inr ⟨by omega, h1.trans hn⟩)

theorem restart_calm (n : Nat) (dev : Device) (v v' : Video) (hr : restart n dev v = some v') :
    Calm v v' := by
  by_cases h : v.fd < 0
  · unfold restart at hr
    rw [stop_closed dev v h] at hr
    exact start_calm n dev v v' hr
  · obtain ⟨he, hlfi⟩ := restart_open_calm n dev v v' (by omega) hr
    exact ⟨he.mono plain_noDq, Or.inl hlfi⟩

theorem needsResize_calm (n : Nat) (dev : Device) (v v' : Video) (r : Bool)
    (hr : needsResize n dev v = some (r, v')) : Calm v v' := by
  by_cases h1 : v.fd < 0
  · rw [needsResize_closed _ _ _ h1] at hr
    injection hr with hr
    rw [← (Prod.mk.inj hr).2]
    exact calm_self v
  · have h : 0 ≤ v.fd := by omega
    cases hl : v.resizeAfterOpen
    · by_cases hq : (dev v.trace.length Req.queryDvTimings).rc < 0
      · cases n with
        | zero => rw [needsResize_out_of_fuel _ _ h hl hq] at hr; cases hr
        | succ n =>
          have hfd : 0 ≤ (noteTimingsError (v.ioctl dev Req.queryDvTimings).2).fd := by
            rw [noteTimingsError_fd]; exact h
          rw [needsResize_failed _ _ _ h hl hq] at hr
          cases hz : restart n dev (noteTimingsError (v.ioctl dev Req.queryDvTimings).2) with
          | none => rw [hz] at hr; cases hr
          | some w =>
            rw [hz] at hr
            injection hr with hr
            have hw := (Prod.mk.inj hr).2
            subst hw
            obtain ⟨he, hlfi⟩ := restart_open_calm n dev _ w hfd hz
            have h0 : Emits NoDq v (noteTimingsError (v.ioctl dev Req.queryDvTimings).2) :=
              emits_of_eq [(Req.queryDvTimings, dev v.trace.length Req.queryDvTimings)]
                (by rw [noteTimingsError_trace]; rfl) (by simp [NoDq])
            exact ⟨h0.trans (he.mono plain_noDq), Or.inl hlfi⟩
      · have hq0 : 0 ≤ (dev v.trace.length Req.queryDvTimings).rc := by omega
        by_cases hd : (dev v.trace.length Req.queryDvTimings).width ≠ v.width ∨
            (dev v.trace.length Req.queryDvTimings).height ≠ v.height
        · rw [needsResize_changed _ _ _ h hl hq0 hd] at hr
          injection hr with hr
          rw [← (Prod.mk.inj hr).2]
          exact ⟨emits_of_eq [_] rfl (by simp [NoDq]), Or.inl rfl⟩
        · have hw1 : (dev v.trace.length Req.queryDvTimings).width = v.width := by
            by_contra hne; exact hd (Or.inl hne)
          have hh1 : (dev v.trace.length Req.queryDvTimings).height = v.height := by
            by_contra hne; exact hd (Or.inr hne)
          rw [needsResize_same _ _ _ h hl hq0 hw1 hh1] at hr
          injection hr with hr
          rw [← (Prod.mk.inj hr).2]
          exact ⟨emits_of_eq [_] rfl (by simp [NoDq]), Or.inr (Or.inl ⟨rfl, rfl, rfl⟩)⟩
    · rw [needsResize_latched _ _ _ h hl] at hr
      injection hr with hr
      rw [← (Prod.mk.inj hr).2]
      exact calm_self v


/-! ### Sequences of operations -/

theorem getData_unset (v : Video) (h : v.lastFrameIndex = -1) : getData v = some 0 := by
  unfold getData
  rw [h]
  rfl

/-- What `getFrame` does to the last frame. -/
theorem getFrame_effect (fuel : Nat) (dev : Device) (v v' : Video)
    (hr : getFrame fuel dev v = some v') :
    Emits (fun _ => True) v v' ∧ v'.fd = v.fd ∧
      ((∀ e ∈ newEvents v v', ¬ Good e) → v'.lastFrameIndex = v.lastFrameIndex) ∧
      (FrameKept v → FrameKept v') := by
  by_cases h : v.fd < 0
  · unfold getFrame at hr
    rw [if_pos h] at hr
    injection hr with hr
    subst hr
    exact ⟨Emits.refl _ _, rfl, fun _ => rfl, fun hk => hk⟩
  · have h0 : 0 ≤ v.fd := by omega
    obtain ⟨vd, es, hv', t, p, hlen, hfd, hmono, hnone, hsome⟩ :=
      getFrame_spec fuel dev v v' h0 hr
    obtain ⟨r1, r2, r3, esr, tr, pr, _, rl, rq⟩ := requeue_spec dev 0 vd.buffers.length vd
    rw [← hv'] at r1 r2 r3 tr rl rq
    have ht : v'.trace = (esr ++ (es ++ [(Req.select, dev v.trace.length Req.select)]))
        ++ v.trace := by rw [tr, t]; simp
    have hnew := newEvents_of_eq v v' _ ht
    refine ⟨⟨_, ht, fun _ _ => trivial⟩, r3.trans hfd, ?_, ?_⟩
    · intro hno
      rw [r1]
      apply hnone
      intro e he
      apply hno e
      rw [hnew]
      exact List.mem_append.mpr (Or.inr (List.mem_append.mpr (Or.inl he)))
    · intro hk
      by_cases hg : ∃ e ∈ es, Good e
      · obtain ⟨k, b, hk1, hb, hq, _⟩ := hsome hg
        exact Or.inr ⟨k, b, r1.trans hk1, by rw [rl k hk1.symm]; exact hb, hq⟩
      · have hlfi : vd.lastFrameIndex = v.lastFrameIndex :=
          hnone (fun e he hgood => hg ⟨e, he, hgood⟩)
        rcases hk with hk | ⟨k, b, hk1, hb, hq⟩
        · exact Or.inl (r1.trans (hlfi.trans hk))
        · have hklt : k < vd.buffers.length := by
            rw [hlen]; exact (List.getElem?_eq_some_iff.mp hb).1
          obtain ⟨b', hb'⟩ : ∃ b', vd.buffers[k]? = some b' :=
            ⟨_, List.getElem?_eq_getElem hklt⟩
          obtain ⟨b0, hb0, hq0⟩ := hmono k b' hb'
          rw [hb] at hb0
          injection hb0 with hb0
          subst hb0
          have hq' : b'.queued = false := by
            cases hbq : b'.queued
            · rfl
            · rw [hq0 hbq] at hq; cases hq
          exact Or.inr ⟨k, b', r1.trans (hlfi.trans hk1),
            by rw [rl k (hlfi.trans hk1).symm]; exact hb', hq'⟩

/-- One admitted operation keeps: a closed session has no last frame; the last frame, if
set, is a pool buffer that is not queued. -/
theorem step_keeps_frame (dev : Device) (op : Op) (v v' : Video)
    (ha : op.admitted afterNeedsResize v = true) (hs : op.step dev v = some v')
    (h1 : v.fd < 0 → v.lastFrameIndex = -1) (h2 : FrameKept v) :
    (v'.fd < 0 → v'.lastFrameIndex = -1) ∧ FrameKept v' := by
  have calm : Calm v v' → (v'.fd < 0 → v'.lastFrameIndex = -1) ∧ FrameKept v' := by
    rintro ⟨_, hc | ⟨c1, c2, c3⟩ | ⟨c1, c2⟩⟩
    · exact ⟨fun _ => hc, Or.inl hc⟩
    · refine ⟨fun hfd => c1.trans (h1 (by omega)), ?_⟩
      rcases h2 with h2 | ⟨k, b, hk, hb, hq⟩
      · exact Or.inl (c1.trans h2)
      · exact Or.inr ⟨k, b, c1.trans hk, by rw [c3]; exact hb, hq⟩
    · exact ⟨fun _ => c2.trans (h1 c1), Or.inl (c2.trans (h1 c1))⟩
  cases op with
  | start n => exact calm (start_calm n dev v v' hs)
  | stop =>
    have hs' : some (stop dev v) = some v' := hs
    injection hs' with hs'
    subst hs'
    exact calm (stop_calm dev v)
  | restart n => exact calm (restart_calm n dev v v' hs)
  | needsResize n =>
    have hs' : (needsResize n dev v).map Prod.snd = some v' := hs
    cases hz : needsResize n dev v with
    | none => rw [hz] at hs'; cases hs'
    | some p =>
      rw [hz] at hs'
      injection hs' with hs'
      obtain ⟨r, w⟩ := p
      simp only at hs'
      subst hs'
      exact calm (needsResize_calm n dev v _ r hz)
  | resize n =>
    have hg : v.lastFrameIndex = -1 ∨ v.resizeAfterOpen = true := by
      have ha' : afterNeedsResize v = true := ha
      unfold afterNeedsResize at ha'
      simpa using ha'
    exact calm ((resize_mild n dev v v' hs).2 hg)
  | getFrame n =>
    obtain ⟨_, hfd, _, hk⟩ := getFrame_effect n dev v v' hs
    refine ⟨fun hc => ?_, hk h2⟩
    have hv : v.fd < 0 := by omega
    have hs' : getFrame n dev v = some v' := hs
    unfold getFrame at hs'
    rw [if_pos hv] at hs'
    injection hs' with hs'
    rw [← hs']
    exact h1 hv

theorem run_keeps_frame (dev : Device) (ops : List Op) (v v' : Video)
    (hr : run afterNeedsResize dev ops v = some v')
    (h1 : v.fd < 0 → v.lastFrameIndex = -1) (h2 : FrameKept v) :
    (v'.fd < 0 → v'.lastFrameIndex = -1) ∧ FrameKept v' := by
  induction ops generalizing v with
  | nil =>
    injection hr with hr
    subst hr
    exact ⟨h1, h2⟩
  | cons op ops ih =>
    unfold run at hr
    by_cases ha : op.admitted afterNeedsResize v = true
    · rw [if_pos ha] at hr
      cases hz : op.step dev v with
      | none => rw [hz] at hr; cases hr
      | some w =>
        rw [hz] at hr
        obtain ⟨w1, w2⟩ := step_keeps_frame dev op v w ha hz h1 h2
        exact ih w hr w1 w2
    · rw [if_neg ha] at hr
      cases hr

/-- One operation, admitted or not: the trace grows; a closed session has no last frame;
an unset last frame stays unset unless a dequeue hands over a buffer not flagged. -/
theorem step_keeps_unset (dev : Device) (op : Op) (v v' : Video)
    (hs : op.step dev v = some v') :
    Emits (fun _ => True) v v' ∧
      ((v.fd < 0 → v.lastFrameIndex = -1) → (v'.fd < 0 → v'.lastFrameIndex = -1)) ∧
      (v.lastFrameIndex = -1 → (∀ e ∈ newEvents v v', ¬ Good e) →
        v'.lastFrameIndex = -1) := by
  have mild : Mild v v' → Emits (fun _ => True) v v' ∧
      ((v.fd < 0 → v.lastFrameIndex = -1) → (v'.fd < 0 → v'.lastFrameIndex = -1)) ∧
      (v.lastFrameIndex = -1 → (∀ e ∈ newEvents v v', ¬ Good e) →
        v'.lastFrameIndex = -1) := by
    rintro ⟨he, hc⟩
    refine ⟨he.mono (fun _ _ => trivial), ?_, ?_⟩
    · intro h1 hfd
      rcases hc with hc | ⟨c1, c2⟩ | ⟨c1, c2⟩
      · exact hc
      · exact c1.trans (h1 (by omega))
      · exact c2.trans (h1 c1)
    · intro hu _
      rcases hc with hc | ⟨c1, _⟩ | ⟨_, c2⟩
      · exact hc
      · exact c1.trans hu
      · exact c2.trans hu
  cases op with
  | start n => exact mild (start_calm n dev v v' hs).mild
  | stop =>
    have hs' : some (stop dev v) = some v' := hs
    injection hs' with hs'
    subst hs'
    exact mild (stop_calm dev v).mild
  | restart n => exact mild (restart_calm n dev v v' hs).mild
  | needsResize n =>
    have hs' : (needsResize n dev v).map Prod.snd = some v' := hs
    cases hz : needsResize n dev v with
    | none => rw [hz] at hs'; cases hs'
    | some p =>
      rw [hz] at hs'
      injection hs' with hs'
      obtain ⟨r, w⟩ := p
      simp only at hs'
      subst hs'
      exact mild (needsResize_calm n dev v _ r hz).mild
  | resize n => exact mild (resize_mild n dev v v' hs).1
  | getFrame n =>
    obtain ⟨he, hfd, hno, _⟩ := getFrame_effect n dev v v' hs
    refine ⟨he, ?_, fun hu hn => (hno hn).trans hu⟩
    intro h1 hc
    have hv : v.fd < 0 := by omega
    have hs' : getFrame n dev v = some v' := hs
    unfold getFrame at hs'
    rw [if_pos hv] at hs'
    injection hs' with hs'
    rw [← hs']
    exact h1 hv

theorem run_keeps_unset (guard : Video → Bool) (dev : Device) (ops : List Op) (v v' : Video)
    (hr : run guard dev ops v = some v') :
    Emits (fun _ => True) v v' ∧
      ((v.fd < 0 → v.lastFrameIndex = -1) → (v'.fd < 0 → v'.lastFrameIndex = -1)) ∧
      (v.lastFrameIndex = -1 → (∀ e ∈ newEvents v v', ¬ Good e) →
        v'.lastFrameIndex = -1) := by
  induction ops generalizing v with
  | nil =>
    injection hr with hr
    subst hr
    exact ⟨Emits.refl _ _, fun h => h, fun h _ => h⟩
  | cons op ops ih =>
    unfold run at hr
    by_cases ha : op.admitted guard v = true
    · rw [if_pos ha] at hr
      cases hz : op.step dev v with
      | none => rw [hz] at hr; cases hr
      | some w =>
        rw [hz] at hr
        obtain ⟨e1, f1, u1⟩ := step_keeps_unset dev op v w hz
        obtain ⟨e2, f2, u2⟩ := ih w hr
        obtain ⟨es1, t1, _⟩ := e1
        obtain ⟨es2, t2, _⟩ := e2
        have ht : v'.trace = (es2 ++ es1) ++ v.trace := by rw [t2, t1]; simp
        have hnew := newEvents_of_eq v v' _ ht
        have hnew1 := newEvents_of_eq v w _ t1
        have hnew2 := newEvents_of_eq w v' _ t2
        refine ⟨⟨_, ht, fun _ _ => trivial⟩, fun h => f2 (f1 h), ?_⟩
        intro hu hn
        apply u2
        · apply u1 hu
          intro e he
          apply hn e
          rw [hnew]; rw [hnew1] at he
          exact List.mem_append.mpr (Or.inr he)
        · intro e he
          apply hn e
          rw [hnew]; rw [hnew2] at he
          exact List.mem_append.mpr (Or.inl he)
    · rw [if_neg ha] at hr
      cases hr


/-- After a `needsResize()` that returned true the last frame is unset or the latch is
set. -/
theorem needsResize_true (n : Nat) (dev : Device) (v v' : Video)
    (hr : needsResize n dev v = some (true, v')) : afterNeedsResize v' = true := by
  by_cases h1 : v.fd < 0
  · rw [needsResize_closed _ _ _ h1] at hr
    injection hr with hr
    cases (Prod.mk.inj hr).1
  · have h : 0 ≤ v.fd := by omega
    cases hl : v.resizeAfterOpen
    · by_cases hq : (dev v.trace.length Req.queryDvTimings).rc < 0
      · cases n with
        | zero => rw [needsResize_out_of_fuel _ _ h hl hq] at hr; cases hr
        | succ n =>
          rw [needsResize_failed _ _ _ h hl hq] at hr
          cases hz : restart n dev (noteTimingsError (v.ioctl dev Req.queryDvTimings).2) with
          | none => rw [hz] at hr; cases hr
          | some w =>
            rw [hz] at hr
            injection hr with hr
            cases (Prod.mk.inj hr).1
      · have hq0 : 0 ≤ (dev v.trace.length Req.queryDvTimings).rc := by omega
        by_cases hd : (dev v.trace.length Req.queryDvTimings).width ≠ v.width ∨
            (dev v.trace.length Req.queryDvTimings).height ≠ v.height
        · rw [needsResize_changed _ _ _ h hl hq0 hd] at hr
          injection hr with hr
          rw [← (Prod.mk.inj hr).2]
          rfl
        · have hw1 : (dev v.trace.length Req.queryDvTimings).width = v.width := by
            by_contra hne; exact hd (Or.inl hne)
          have hh1 : (dev v.trace.length Req.queryDvTimings).height = v.height := by
            by_contra hne; exact hd (Or.inr hne)
          rw [needsResize_same _ _ _ h hl hq0 hw1 hh1] at hr
          injection hr with hr
          cases (Prod.mk.inj hr).1
    · rw [needsResize_latched _ _ _ h hl] at hr
      injection hr with hr
      rw [← (Prod.mk.inj hr).2]
      unfold afterNeedsResize
      rw [hl]
      exact Bool.or_true _

/-- C4, amended: in every state reached from the constructed session by public operations
in which `resize()` is invoked only when the last frame is unset or the latch is set (as
after a `needsResize()` that returned true), a closed session has `lastFrameIndex`
unset, and `lastFrameIndex` is unset or the index of a pool buffer with queued = false.
When `getFrame()` records a frame, the payload of that buffer is the byte count the
device reported for it. -/
theorem lastFrame_invariant (dev : Device) (ops : List Op) (fr sub : Int) (v : Video)
    (hr : run afterNeedsResize dev ops (Video.init fr sub) = some v) :
    (v.fd < 0 → v.lastFrameIndex = -1) ∧ FrameKept v ∧
    (∀ (fuel : Nat) (v' : Video), 0 ≤ v.fd → getFrame fuel dev v = some v' →
      (∃ e ∈ newEvents v v', Good e) →
      ∃ (k : Nat) (b : Buffer), v'.lastFrameIndex = (k : Int) ∧ v'.buffers[k]? = some b ∧
        b.queued = false ∧
        ∃ e ∈ newEvents v v', Good e ∧ e.2.index = k ∧ b.payload = e.2.bytesused) ∧
    (∀ (n : Nat) (v' : Video), needsResize n dev v = some (true, v') →
      afterNeedsResize v' = true) := by
  obtain ⟨h1, h2⟩ := run_keeps_frame dev ops _ v hr (fun _ => rfl) (Or.inl rfl)
  refine ⟨h1, h2, ?_, fun n v' hn => needsResize_true n dev v v' hn⟩
  intro fuel v' hfd hg hgood
  obtain ⟨k, b, c1, c2, c3, c4, _⟩ := getFrame_frame fuel dev v v' hfd hg hgood
  exact ⟨k, b, c1, c2, c3, c4⟩

theorem lastFrame_invariant_witness :
    run afterNeedsResize devReady
        [Op.start 0, Op.needsResize 1, Op.getFrame 1, Op.needsResize 1] (Video.init 30 0)
      = some vLoop ∧
    (vLoop.fd < 0 → vLoop.lastFrameIndex = -1) ∧ FrameKept vLoop ∧ vLoop.lastFrameIndex = 1 :=
  have h : run afterNeedsResize devReady
        [Op.start 0, Op.needsResize 1, Op.getFrame 1, Op.needsResize 1] (Video.init 30 0)
      = some vLoop := by decide!
  ⟨h, (lastFrame_invariant devReady _ 30 0 vLoop h).1,
    (lastFrame_invariant devReady _ 30 0 vLoop h).2.1, by decide!⟩

/-- C4, as stated, fails.  On `devReady`, `start()`, `getFrame()`, `resize()` leave
`lastFrameIndex` at 1 while `resize()` has queued every buffer again.  On `devEmpty`,
`start()`, `getFrame()` leave `lastFrameIndex` at 1, a buffer whose payload is the 0
bytes the device reported. -/
theorem lastFrame_not_held :
    run anyOrder devReady [Op.start 0, Op.getFrame 1, Op.resize 1] (Video.init 30 0)
      = some vResized ∧
    ¬ FrameHeld vResized ∧ vResized.lastFrameIndex = 1 ∧
    vResized.buffers.map (fun b => b.queued) = [true, true, true] ∧
    run anyOrder devEmpty [Op.start 0, Op.getFrame 1] (Video.init 30 0) = some vEmptyFrame ∧
    ¬ FrameHeld vEmptyFrame ∧ vEmptyFrame.lastFrameIndex = 1 ∧
    vEmptyFrame.buffers.map (fun b => b.queued) = [true, false, true] ∧
    vEmptyFrame.buffers.map (fun b => b.payload) = [0, 0, 0] := by
  decide!

/-- C7, amended: `getData()` returns null whenever `lastFrameIndex` is unset.  `stop()`
leaves it unset on every open session and on every session reached from the constructed
one, where a closed session never has a last frame.  `start()` and `resize()` never set
it: after them it is unset, and `getData()` returns null, whenever it was unset before
the call; this is so for `start()` on every closed session reached from the constructed
one. -/
theorem getData_null_when_unset :
    (∀ v : Video, v.lastFrameIndex = -1 → getData v = some 0) ∧
    (∀ (dev : Device) (v : Video), 0 ≤ v.fd →
      (stop dev v).lastFrameIndex = -1 ∧ getData (stop dev v) = some 0) ∧
    (∀ (dev : Device) (ops : List Op) (fr sub : Int) (v : Video),
      run anyOrder dev ops (Video.init fr sub) = some v →
      (v.fd < 0 → v.lastFrameIndex = -1) ∧ getData (stop dev v) = some 0 ∧
      (∀ (n : Nat) (v' : Video), v.fd < 0 → start n dev v = some v' →
        getData v' = some 0)) ∧
    (∀ (n : Nat) (dev : Device) (v v' : Video), v.lastFrameIndex = -1 →
      start n dev v = some v' → v'.lastFrameIndex = -1 ∧ getData v' = some 0) ∧
    (∀ (n : Nat) (dev : Device) (v v' : Video), v.lastFrameIndex = -1 →
      resize n dev v = some v' → v'.lastFrameIndex = -1 ∧ getData v' = some 0) := by
  have hstart : ∀ (n : Nat) (dev : Device) (v v' : Video), v.lastFrameIndex = -1 →
      start n dev v = some v' → v'.lastFrameIndex = -1 := by
    intro n dev v v' hu hs
    rcases (start_calm n dev v v' hs).2 with hc | ⟨c1, _⟩ | ⟨_, c2⟩
    · exact hc
    · exact c1.trans hu
    · exact c2.trans hu
  have hstop : ∀ (dev : Device) (v : Video), (v.fd < 0 → v.lastFrameIndex = -1) →
      (stop dev v).lastFrameIndex = -1 := by
    intro dev v h1
    by_cases hfd : v.fd < 0
    · rw [stop_closed dev v hfd]; exact h1 hfd
    · exact (stop_frame dev v (by omega)).2.1
  refine ⟨getData_unset, ?_, ?_, ?_, ?_⟩
  · intro dev v hfd
    have := (stop_frame dev v hfd).2.1
    exact ⟨this, getData_unset _ this⟩
  · intro dev ops fr sub v hr
    have h1 := (run_keeps_unset anyOrder dev ops _ v hr).2.1 (fun _ => rfl)
    refine ⟨h1, getData_unset _ (hstop dev v h1), ?_⟩
    intro n v' hfd hs
    exact getData_unset _ (hstart n dev v v' (h1 hfd) hs)
  · intro n dev v v' hu hs
    have := hstart n dev v v' hu hs
    exact ⟨this, getData_unset _ this⟩
  · intro n dev v v' hu hs
    have : v'.lastFrameIndex = -1 := by
      rcases (resize_mild n dev v v' hs).1.2 with hc | ⟨c1, _⟩ | ⟨_, c2⟩
      · exact hc
      · exact c1.trans hu
      · exact c2.trans hu
    exact ⟨this, getData_unset _ this⟩

theorem getData_null_when_unset_witness :
    ((Video.init 30 0).lastFrameIndex = -1 ∧
      start 0 devReady (Video.init 30 0) = some vReady) ∧
    vReady.lastFrameIndex = -1 ∧ getData vReady = some 0 :=
  ⟨by decide!,
    getData_null_when_unset.2.2.2.1 0 devReady (Video.init 30 0) vReady (by decide)
      (by decide!)⟩

/-- C7, as stated, fails.  On `devHd`, `start()` sets the latch and `getFrame()` records
buffer 1; `needsResize()` returns true and `resize()` consumes the latch, leaving
`lastFrameIndex` at 1, and `getData()` returns the mapping of buffer 1, not null.  On
`devReady`, after `start()`, `getFrame()`, a further `start()` does nothing and
`getData()` returns the mapping of buffer 1 as well. -/
theorem getData_not_null_after_resize :
    run afterNeedsResize devHd
        [Op.start 0, Op.getFrame 1, Op.needsResize 1, Op.resize 1] (Video.init 30 0)
      = some vLatched ∧
    needsResize 1 devHd
        ((run anyOrder devHd [Op.start 0, Op.getFrame 1] (Video.init 30 0)).getD
          (Video.init 30 0))
      = some (true,
        (run anyOrder devHd [Op.start 0, Op.getFrame 1] (Video.init 30 0)).getD
          (Video.init 30 0)) ∧
    vLatched.lastFrameIndex = 1 ∧ getData vLatched = some 8192 ∧
    run anyOrder devReady [Op.start 0, Op.getFrame 1, Op.start 0] (Video.init 30 0)
      = some vRestarted ∧
    vRestarted.lastFrameIndex = 1 ∧ getData vRestarted = some 8192 := by
  decide!

theorem poll_unchanged (n : Nat) (dev : Device) (width height start : Nat)
    (hdev : ∀ t, start ≤ t → 0 ≤ (dev t Req.queryDvTimings).rc ∧
      (dev t Req.queryDvTimings).width = width ∧ (dev t Req.queryDvTimings).height = height)
    (k : Nat) (w : Video) (hfd : 0 ≤ w.fd) (hl : w.resizeAfterOpen = false)
    (hw : w.width = width) (hh : w.height = height) (ht : start ≤ w.trace.length) :
    ∃ w', poll n dev k w = some (List.replicate k false, w') := by
  induction k generalizing w with
  | zero => exact ⟨w, rfl⟩
  | succ k ih =>
    obtain ⟨d1, d2, d3⟩ := hdev w.trace.length ht
    have hs := needsResize_same n dev w hfd hl d1 (d2.trans hw.symm) (d3.trans hh.symm)
    obtain ⟨w', hw'⟩ := ih { (w.ioctl dev Req.queryDvTimings).2 with timingsError := false }
      hfd hl hw hh (Nat.le_succ_of_le ht)
    refine ⟨w', ?_⟩
    unfold poll
    rw [hs]
    simp only [hw', Option.map_some', List.replicate_succ]

/-- C5: on an open session with the latch clear, when the timing query succeeds and
reports a width or height other than the session's, `needsResize()` returns true, adopts
the width and height reported and unsets `lastFrameIndex`, so that `getData()` returns
null; it stays null through every sequence of public operations in which no dequeue
hands over a buffer not flagged as errored.  While the device goes on reporting those
timings, every further call of `needsResize()` returns false: the change is reported
once. -/
theorem needsResize_change (n : Nat) (dev : Device) (v : Video) (h : 0 ≤ v.fd)
    (hl : v.resizeAfterOpen = false) (hq : 0 ≤ (dev v.trace.length Req.queryDvTimings).rc)
    (hd : (dev v.trace.length Req.queryDvTimings).width ≠ v.width ∨
      (dev v.trace.length Req.queryDvTimings).height ≠ v.height) :
    ∃ v1, needsResize n dev v = some (true, v1) ∧
      v1.width = (dev v.trace.length Req.queryDvTimings).width ∧
      v1.height = (dev v.trace.length Req.queryDvTimings).height ∧
      v1.lastFrameIndex = -1 ∧ getData v1 = some 0 ∧
      (∀ (ops : List Op) (v2 : Video), run anyOrder dev ops v1 = some v2 →
        (∀ e ∈ newEvents v1 v2, ¬ Good e) →
        v2.lastFrameIndex = -1 ∧ getData v2 = some 0) ∧
      ((∀ t, v1.trace.length ≤ t → 0 ≤ (dev t Req.queryDvTimings).rc ∧
          (dev t Req.queryDvTimings).width = v1.width ∧
          (dev t Req.queryDvTimings).height = v1.height) →
        ∀ k, ∃ w, poll n dev k v1 = some (List.replicate k false, w)) := by
  refine ⟨_, needsResize_changed n dev v h hl hq hd, rfl, rfl, rfl, getData_unset _ rfl, ?_, ?_⟩
  · intro ops v2 hr hno
    have := (run_keeps_unset anyOrder dev ops _ v2 hr).2.2 rfl hno
    exact ⟨this, getData_unset _ this⟩
  · intro hdev k
    exact poll_unchanged n dev _ _ _ hdev k _ h hl rfl rfl (Nat.le_refl _)

theorem needsResize_change_witness :
    (0 ≤ vReady.fd ∧ vReady.resizeAfterOpen = false ∧
      0 ≤ (devSteady vReady.trace.length Req.queryDvTimings).rc ∧
      ((devSteady vReady.trace.length Req.queryDvTimings).width ≠ vReady.width ∨
        (devSteady vReady.trace.length Req.queryDvTimings).height ≠ vReady.height)) ∧
    ∃ v1, needsResize 1 devSteady vReady = some (true, v1) ∧ v1.width = 1024 ∧
      v1.height = 768 ∧ v1.lastFrameIndex = -1 ∧ getData v1 = some 0 :=
  ⟨by decide!,
    (needsResize_change 1 devSteady vReady (by decide!) (by decide!) (by decide!)
      (by decide!)).elim
      fun v1 hv => ⟨v1, hv.1, hv.2.1, hv.2.2.1, hv.2.2.2.1, hv.2.2.2.2.1⟩⟩

end ikvm
